import Mathlib

/-!
Verification of the computational core of a Classic-McEliece KEM
implementation: two Galois-field engines (a 12-bit engine from
src/common/gf12.rs and a 13-bit engine from src/gf.rs), the polynomial
evaluator / root finder (src/mceliece348864/root.rs), and the support
generator built on the Benes permutation network
(src/common/internals348864/benes.rs).

Machine integers are modelled as Nat.  Wherever a Rust cast or wrapping
operation can actually change a value for inputs in the Rust type's range,
the truncation is made explicit with a `% 2^w`; operations that cannot
overflow for such inputs are written directly on Nat.
-/

set_option maxRecDepth 100000

/-! ### Generic bit-manipulation facts used throughout -/

theorem natXor_left_comm (a b c : Nat) : a ^^^ (b ^^^ c) = b ^^^ (a ^^^ c) := by
  rw [← Nat.xor_assoc, Nat.xor_comm a b, Nat.xor_assoc]

theorem xor_shiftRight_distrib (x y k : Nat) :
    (x ^^^ y) >>> k = (x >>> k) ^^^ (y >>> k) := by
  apply Nat.eq_of_testBit_eq
  intro i
  simp [Nat.testBit_shiftRight]

theorem xor_shiftLeft_distrib (x y k : Nat) :
    (x ^^^ y) <<< k = (x <<< k) ^^^ (y <<< k) := by
  apply Nat.eq_of_testBit_eq
  intro i
  simp only [Nat.testBit_shiftLeft, Nat.testBit_xor]
  cases decide (k ≤ i) <;> simp

theorem xor_mul_pow_distrib (x y k : Nat) :
    (x ^^^ y) * 2 ^ k = (x * 2 ^ k) ^^^ (y * 2 ^ k) := by
  rw [← Nat.shiftLeft_eq, ← Nat.shiftLeft_eq, ← Nat.shiftLeft_eq]
  exact xor_shiftLeft_distrib x y k

theorem xor_mod_two_pow (x y k : Nat) :
    (x ^^^ y) % 2 ^ k = (x % 2 ^ k) ^^^ (y % 2 ^ k) := by
  apply Nat.eq_of_testBit_eq
  intro i
  simp only [Nat.testBit_mod_two_pow, Nat.testBit_xor]
  cases Nat.decLt i k with
  | isTrue h => simp [h]
  | isFalse h => simp [h]

theorem mul_pow_or_eq_xor (a b i : Nat) (hb : b < 2 ^ i) :
    (2 ^ i * a) ||| b = (2 ^ i * a) ^^^ b := by
  apply Nat.eq_of_testBit_eq
  intro j
  simp only [Nat.testBit_or, Nat.testBit_xor]
  rcases Nat.lt_or_ge j i with h | h
  · have : (2 ^ i * a).testBit j = false := by
      rw [Nat.testBit_mul_pow_two]
      simp [Nat.not_le_of_lt h]
    simp [this]
  · have : b.testBit j = false :=
      Nat.testBit_lt_two_pow (Nat.lt_of_lt_of_le hb (Nat.pow_le_pow_right (by omega) h))
    simp [this]

theorem mul_pow_add_eq_xor (a b i : Nat) (hb : b < 2 ^ i) :
    2 ^ i * a + b = (2 ^ i * a) ^^^ b := by
  rw [Nat.mul_add_lt_is_or hb, mul_pow_or_eq_xor a b i hb]

theorem two_pow_xor_eq_add (j r : Nat) (hr : r < 2 ^ j) :
    2 ^ j ^^^ r = 2 ^ j + r := by
  have := mul_pow_add_eq_xor 1 r j hr
  simpa using this.symm

/-- Extension of agreement from powers of two to a full range, for maps that
are XOR-linear below 2^n.  This is the workhorse that turns per-basis-vector
checks (decidable by evaluation) into universally quantified field laws. -/
theorem linext {n : Nat} {f g : Nat → Nat}
    (hf : ∀ m₁ m₂, m₁ < 2 ^ n → m₂ < 2 ^ n → f (m₁ ^^^ m₂) = f m₁ ^^^ f m₂)
    (hg : ∀ m₁ m₂, m₁ < 2 ^ n → m₂ < 2 ^ n → g (m₁ ^^^ m₂) = g m₁ ^^^ g m₂)
    (hpow : ∀ j, j < n → f (2 ^ j) = g (2 ^ j)) :
    ∀ m, m < 2 ^ n → f m = g m := by
  intro m
  induction m using Nat.strong_induction_on with
  | _ m ih =>
    intro hm
    rcases Nat.eq_zero_or_pos m with h0 | hpos
    · subst h0
      have h1 : (0 : Nat) < 2 ^ n := Nat.pos_pow_of_pos n (by omega)
      have hf0 : f 0 = f 0 ^^^ f 0 := by
        have := hf 0 0 h1 h1
        simpa using this
      have hg0 : g 0 = g 0 ^^^ g 0 := by
        have := hg 0 0 h1 h1
        simpa using this
      rw [Nat.xor_self] at hf0 hg0
      rw [hf0, hg0]
    · have hmne : m ≠ 0 := by omega
      set j := Nat.log2 m with hj
      have hle : 2 ^ j ≤ m := Nat.log2_self_le hmne
      have hlt : m < 2 ^ (j + 1) := Nat.lt_log2_self
      have hjn : j < n := by
        by_contra hc
        have : 2 ^ n ≤ 2 ^ j := Nat.pow_le_pow_right (by omega) (by omega)
        omega
      set r := m - 2 ^ j with hrdef
      have hr : r < 2 ^ j := by
        have : 2 ^ (j + 1) = 2 ^ j + 2 ^ j := by rw [Nat.pow_succ]; omega
        omega
      have hxm : m = 2 ^ j ^^^ r := by
        rw [two_pow_xor_eq_add j r hr]; omega
      have hpj : (2 : Nat) ^ j < 2 ^ n := Nat.pow_lt_pow_right (by omega) hjn
      have hrn : r < 2 ^ n := by omega
      have hrm : r < m := by
        have : (0 : Nat) < 2 ^ j := Nat.pos_pow_of_pos j (by omega)
        omega
      rw [hxm, hf _ _ hpj hrn, hg _ _ hpj hrn, hpow j hjn, ih r hrm hrn]

/-! ### The 12-bit field engine (src/common/gf12.rs) -/

namespace gf12

def GFBITS : Nat := 12

def COND_BYTES : Nat := (1 <<< (GFBITS - 4)) * (2 * GFBITS - 1)

def GFMASK : Nat := (1 <<< GFBITS) - 1

/-- Store a Gf element into two bytes (dest[0], dest[1]).  The cast of
`a >> 8` to u8 truncates, hence the `% 256`. -/
def store_gf (a : Nat) : Nat × Nat := (a &&& 0xFF, (a >>> 8) % 256)

/-- Interpret two bytes as an integer and mask it to a Gf element. -/
def load_gf (b0 b1 : Nat) : Nat :=
  ((b1 <<< 8) ||| b0) &&& GFMASK

/-- Branchless zero test: (a as u32).wrapping_sub(1) >> 19. -/
def gf_iszero (a : Nat) : Nat :=
  ((a + (2 ^ 32 - 1)) % 2 ^ 32) >>> 19

def gf_add (in0 in1 : Nat) : Nat := in0 ^^^ in1

/-- Carry-less multiply-accumulate loop followed by two reduction passes
modulo the field polynomial.  The loop for i in 1..GFBITS is the foldl over
List.range' 1 (GFBITS - 1); the final `tmp as u16 & GFMASK` is the
`% 2 ^ 16` truncation followed by the mask. -/
def gf_mul (in0 in1 : Nat) : Nat :=
  let t0 := in0
  let t1 := in1
  let tmp := (List.range' 1 (GFBITS - 1)).foldl
    (fun tmp i => tmp ^^^ t0 * (t1 &&& (1 <<< i))) (t0 * (t1 &&& 1))
  let t := tmp &&& 0x7FC000
  let tmp := tmp ^^^ (t >>> 9)
  let tmp := tmp ^^^ (t >>> 12)
  let t := tmp &&& 0x3000
  let tmp := tmp ^^^ (t >>> 9)
  let tmp := tmp ^^^ (t >>> 12)
  (tmp % 2 ^ 16) &&& GFMASK

/-- Squaring via bit interleaving followed by the same reduction passes.
All u32 intermediates stay below 2^32 for u16 inputs, so only the final
cast to u16 needs a truncation. -/
def gf_sq (in0 : Nat) : Nat :=
  let x := in0
  let x := (x ||| (x <<< 8)) &&& 0x00FF00FF
  let x := (x ||| (x <<< 4)) &&& 0x0F0F0F0F
  let x := (x ||| (x <<< 2)) &&& 0x33333333
  let x := (x ||| (x <<< 1)) &&& 0x55555555
  let t := x &&& 0x7FC000
  let x := x ^^^ (t >>> 9)
  let x := x ^^^ (t >>> 12)
  let t := x &&& 0x3000
  let x := x ^^^ (t >>> 9)
  let x := x ^^^ (t >>> 12)
  (x % 2 ^ 16) &&& GFMASK

/-- Inversion by the fixed addition chain a^(2^12 - 2). -/
def gf_inv (in0 : Nat) : Nat :=
  let out := gf_sq in0
  let tmp_11 := gf_mul out in0
  let out := gf_sq tmp_11
  let out := gf_sq out
  let tmp_1111 := gf_mul out tmp_11
  let out := gf_sq tmp_1111
  let out := gf_sq out
  let out := gf_sq out
  let out := gf_sq out
  let out := gf_mul out tmp_1111
  let out := gf_sq out
  let out := gf_sq out
  let out := gf_mul out tmp_11
  let out := gf_sq out
  let out := gf_mul out in0
  gf_sq out

/-- Division num/den as multiplication by the inverse. -/
def gf_frac (den num : Nat) : Nat :=
  gf_mul (gf_inv den) num

/-- Reverse the low 12 bits of a 16-bit value (16-bit reversal, then >> 4).
No u16 step can overflow. -/
def bitrev (a : Nat) : Nat :=
  let a := ((a &&& 0x00FF) <<< 8) ||| ((a &&& 0xFF00) >>> 8)
  let a := ((a &&& 0x0F0F) <<< 4) ||| ((a &&& 0xF0F0) >>> 4)
  let a := ((a &&& 0x3333) <<< 2) ||| ((a &&& 0xCCCC) >>> 2)
  let a := ((a &&& 0x5555) <<< 1) ||| ((a &&& 0xAAAA) >>> 1)
  a >>> 4

end gf12

/-! ### The 13-bit field engine (src/gf.rs).

The engine's code lives in src/gf.rs; its parameters GFBITS = 13 and
GFMASK = 2^13 - 1 come from the crate's params module. -/

namespace gf13

/-- Modelled from the spec: the params module (crate::params) is not among
the provided sources; per the spec this is the 13-bit field variant, so
GFBITS = 13. -/
def GFBITS : Nat := 13

/-- Modelled from the spec: GFMASK is the field mask 2^GFBITS - 1 of the
13-bit engine. -/
def GFMASK : Nat := (1 <<< GFBITS) - 1

/-- Branchless zero test, identical to the 12-bit engine's. -/
def gf_iszero (a : Nat) : Nat :=
  ((a + (2 ^ 32 - 1)) % 2 ^ 32) >>> 19

def gf_add (in0 in1 : Nat) : Nat := in0 ^^^ in1

/-- Carry-less multiply-accumulate loop followed by two four-tap reduction
passes modulo the field polynomial. -/
def gf_mul (in0 in1 : Nat) : Nat :=
  let t0 := in0
  let t1 := in1
  let tmp := (List.range' 1 (GFBITS - 1)).foldl
    (fun tmp i => tmp ^^^ t0 * (t1 &&& (1 <<< i))) (t0 * (t1 &&& 1))
  let t := tmp &&& 0x1FF0000
  let tmp := tmp ^^^ ((t >>> 9) ^^^ (t >>> 10) ^^^ (t >>> 12) ^^^ (t >>> 13))
  let t := tmp &&& 0x000E000
  let tmp := tmp ^^^ ((t >>> 9) ^^^ (t >>> 10) ^^^ (t >>> 12) ^^^ (t >>> 13))
  tmp &&& GFMASK

/-- Double squaring (input^2)^2 via bit spreading and four reduction
passes.  The masks are processed in order by the i in 0..4 loop. -/
def gf_sq2 (input : Nat) : Nat :=
  let x := input
  let x := (x ||| (x <<< 24)) &&& 0x000000FF000000FF
  let x := (x ||| (x <<< 12)) &&& 0x000F000F000F000F
  let x := (x ||| (x <<< 6)) &&& 0x0303030303030303
  let x := (x ||| (x <<< 3)) &&& 0x1111111111111111
  let x := [0x0001FF0000000000, 0x000000FF80000000,
            0x000000007FC00000, 0x00000000003FE000].foldl
    (fun x m =>
      let t := x &&& m
      x ^^^ ((t >>> 9) ^^^ (t >>> 10) ^^^ (t >>> 12) ^^^ (t >>> 13))) x
  x &&& GFMASK

/-- Fused square-then-multiply (input^2) * m.  No u64 step can overflow for
u16 inputs. -/
def gf_sqmul (input m : Nat) : Nat :=
  let t0 := input
  let t1 := m
  let x := (t1 <<< 6) * (t0 &&& (1 <<< 6))
  let t0 := t0 ^^^ (t0 <<< 7)
  let x := x ^^^ (t1 * (t0 &&& 0x04001))
  let x := x ^^^ ((t1 * (t0 &&& 0x08002)) <<< 1)
  let x := x ^^^ ((t1 * (t0 &&& 0x10004)) <<< 2)
  let x := x ^^^ ((t1 * (t0 &&& 0x20008)) <<< 3)
  let x := x ^^^ ((t1 * (t0 &&& 0x40010)) <<< 4)
  let x := x ^^^ ((t1 * (t0 &&& 0x80020)) <<< 5)
  let x := [0x0000001FF0000000, 0x000000000FF80000, 0x000000000007E000].foldl
    (fun x m2 =>
      let t := x &&& m2
      x ^^^ ((t >>> 9) ^^^ (t >>> 10) ^^^ (t >>> 12) ^^^ (t >>> 13))) x
  x &&& GFMASK

/-- Fused double-square-then-multiply ((input^2)^2) * m.  The shifted
products can exceed 64 bits for u16 inputs, so each accumulated term
carries the u64 truncation. -/
def gf_sq2mul (input m : Nat) : Nat :=
  let t0 := input
  let t1 := m
  let x := (t1 <<< 18) * (t0 &&& (1 <<< 6))
  let t0 := t0 ^^^ (t0 <<< 21)
  let x := x ^^^ ((t1 * (t0 &&& 0x010000001)) % 2 ^ 64)
  let x := x ^^^ (((t1 * (t0 &&& 0x020000002)) <<< 3) % 2 ^ 64)
  let x := x ^^^ (((t1 * (t0 &&& 0x040000004)) <<< 6) % 2 ^ 64)
  let x := x ^^^ (((t1 * (t0 &&& 0x080000008)) <<< 9) % 2 ^ 64)
  let x := x ^^^ (((t1 * (t0 &&& 0x100000010)) <<< 12) % 2 ^ 64)
  let x := x ^^^ (((t1 * (t0 &&& 0x200000020)) <<< 15) % 2 ^ 64)
  let x := [0x1FF0000000000000, 0x000FF80000000000, 0x000007FC00000000,
            0x00000003FE000000, 0x0000000001FE0000, 0x000000000001E000].foldl
    (fun x m2 =>
      let t := x &&& m2
      x ^^^ ((t >>> 9) ^^^ (t >>> 10) ^^^ (t >>> 12) ^^^ (t >>> 13))) x
  x &&& GFMASK

/-- Division num/den via the fixed addition chain den^(2^13 - 2) fused with
the final multiplication by num. -/
def gf_frac (den num : Nat) : Nat :=
  let tmp_11 := gf_sqmul den den
  let tmp_1111 := gf_sq2mul tmp_11 tmp_11
  let out := gf_sq2 tmp_1111
  let out := gf_sq2mul out tmp_1111
  let out := gf_sq2 out
  let out := gf_sq2mul out tmp_1111
  gf_sqmul out num

/-- Inversion as division of 1 by den. -/
def gf_inv (den : Nat) : Nat :=
  gf_frac den 1

end gf13

/-! Golden-value sanity pins taken from the repository's unit tests. -/

example : gf12.gf_mul 2 6 = 12 := by decide
example : gf12.gf_mul 8191 1 = 4086 := by decide
example : gf12.gf_mul 125 19 = 1879 := by decide
example : gf12.gf_sq 4095 = 2746 := by decide
example : gf12.gf_inv 3 = 4088 := by decide
example : gf12.gf_frac 550 10 = 3344 := by decide
example : gf12.gf_iszero 0 = 8191 := by decide
example : gf12.gf_iszero 65535 = 0 := by decide
example : gf12.bitrev 0b1011011101111011 = 0b0000110111101110 := by decide
example : gf12.load_gf 0xAB 0x42 = 0x02AB := by decide
example : gf13.gf_mul 2 6 = 12 := by decide
example : gf13.gf_sq2 3 = 17 := by decide
example : gf13.gf_sqmul 3 2 = 10 := by decide
example : gf13.gf_sq2mul 5 2 = 514 := by decide
example : gf13.gf_frac 2 1 = 4109 := by decide
example : gf13.gf_inv 5 = 5467 := by decide

/-! ### XOR-bilinearity of the multiplication engines

The carry-less accumulation loop shared by both engines, as a foldl from
zero (the source initializes the accumulator with the i = 0 term and loops
from i = 1; the two forms coincide). -/

def mulAcc (t0 t1 n : Nat) : Nat :=
  (List.range n).foldl (fun tmp i => tmp ^^^ t0 * (t1 &&& (1 <<< i))) 0

/-- The reduction-and-mask tail of the 12-bit gf_mul. -/
def red12 (tmp : Nat) : Nat :=
  let t := tmp &&& 0x7FC000
  let tmp := tmp ^^^ (t >>> 9)
  let tmp := tmp ^^^ (t >>> 12)
  let t := tmp &&& 0x3000
  let tmp := tmp ^^^ (t >>> 9)
  let tmp := tmp ^^^ (t >>> 12)
  (tmp % 2 ^ 16) &&& gf12.GFMASK

/-- The reduction-and-mask tail of the 13-bit gf_mul. -/
def red13 (tmp : Nat) : Nat :=
  let t := tmp &&& 0x1FF0000
  let tmp := tmp ^^^ ((t >>> 9) ^^^ (t >>> 10) ^^^ (t >>> 12) ^^^ (t >>> 13))
  let t := tmp &&& 0x000E000
  let tmp := tmp ^^^ ((t >>> 9) ^^^ (t >>> 10) ^^^ (t >>> 12) ^^^ (t >>> 13))
  tmp &&& gf13.GFMASK

theorem gf12_mul_eq_red (a b : Nat) : gf12.gf_mul a b = red12 (mulAcc a b 12) := by
  unfold gf12.gf_mul red12 mulAcc gf12.GFBITS
  rw [List.range_eq_range', show List.range' 0 12 = 0 :: List.range' 1 11 from rfl]
  simp

theorem gf13_mul_eq_red (a b : Nat) : gf13.gf_mul a b = red13 (mulAcc a b 13) := by
  unfold gf13.gf_mul red13 mulAcc gf13.GFBITS
  rw [List.range_eq_range', show List.range' 0 13 = 0 :: List.range' 1 12 from rfl]
  simp

theorem mulAcc_succ (t0 t1 n : Nat) :
    mulAcc t0 t1 (n + 1) = mulAcc t0 t1 n ^^^ t0 * (t1 &&& (1 <<< n)) := by
  unfold mulAcc
  rw [List.range_succ, List.foldl_append]
  rfl

theorem mulAcc_xor_left (a₁ a₂ b n : Nat) :
    mulAcc (a₁ ^^^ a₂) b n = mulAcc a₁ b n ^^^ mulAcc a₂ b n := by
  induction n with
  | zero => simp [mulAcc]
  | succ n ih =>
    rw [mulAcc_succ, mulAcc_succ, mulAcc_succ, ih, Nat.one_shiftLeft, Nat.and_two_pow]
    cases hb : b.testBit n with
    | false => simp
    | true =>
      simp only [Bool.toNat_true, Nat.one_mul, xor_mul_pow_distrib]
      simp only [Nat.xor_assoc]
      rw [natXor_left_comm (mulAcc a₂ b n)]
  

theorem mulAcc_xor_right (a b₁ b₂ n : Nat) :
    mulAcc a (b₁ ^^^ b₂) n = mulAcc a b₁ n ^^^ mulAcc a b₂ n := by
  induction n with
  | zero => simp [mulAcc]
  | succ n ih =>
    rw [mulAcc_succ, mulAcc_succ, mulAcc_succ, ih, Nat.one_shiftLeft,
      Nat.and_xor_distrib_right, Nat.and_two_pow, Nat.and_two_pow]
    cases hb1 : b₁.testBit n with
    | false =>
      cases hb2 : b₂.testBit n with
      | false => simp
      | true =>
        simp only [Bool.toNat_false, Bool.toNat_true, Nat.zero_mul, Nat.one_mul,
          Nat.mul_zero, Nat.zero_xor, Nat.xor_zero]
        simp only [Nat.xor_assoc]
    | true =>
      cases hb2 : b₂.testBit n with
      | false =>
        simp only [Bool.toNat_false, Bool.toNat_true, Nat.zero_mul, Nat.one_mul,
          Nat.mul_zero, Nat.zero_xor, Nat.xor_zero]
        simp only [Nat.xor_assoc]
        rw [Nat.xor_comm (a * 2 ^ n) (mulAcc a b₂ n)]
      | true =>
        simp only [Bool.toNat_true, Nat.one_mul, Nat.xor_self, Nat.mul_zero,
          Nat.xor_zero]
        simp only [Nat.xor_assoc]
        rw [natXor_left_comm (a * 2 ^ n) (mulAcc a b₂ n)]
        rw [Nat.xor_self, Nat.xor_zero]

/-- One two-tap reduction pass, the shape shared by both 12-bit passes. -/
def rpass2 (M s₁ s₂ x : Nat) : Nat :=
  (x ^^^ ((x &&& M) >>> s₁)) ^^^ ((x &&& M) >>> s₂)

/-- One four-tap reduction pass, the shape shared by all 13-bit passes. -/
def rpass4 (M x : Nat) : Nat :=
  x ^^^ ((((x &&& M) >>> 9) ^^^ ((x &&& M) >>> 10)) ^^^ ((x &&& M) >>> 12) ^^^
    ((x &&& M) >>> 13))

theorem rpass2_xor (M s₁ s₂ x y : Nat) :
    rpass2 M s₁ s₂ (x ^^^ y) = rpass2 M s₁ s₂ x ^^^ rpass2 M s₁ s₂ y := by
  unfold rpass2
  simp only [Nat.and_xor_distrib_right, xor_shiftRight_distrib]
  simp only [Nat.xor_assoc, Nat.xor_comm, natXor_left_comm]

theorem rpass4_xor (M x y : Nat) :
    rpass4 M (x ^^^ y) = rpass4 M x ^^^ rpass4 M y := by
  unfold rpass4
  simp only [Nat.and_xor_distrib_right, xor_shiftRight_distrib]
  simp only [Nat.xor_assoc, Nat.xor_comm, natXor_left_comm]

theorem red12_eq_rpass (x : Nat) :
    red12 x = ((rpass2 0x3000 9 12 (rpass2 0x7FC000 9 12 x)) % 2 ^ 16) &&&
      gf12.GFMASK := rfl

theorem red13_eq_rpass (x : Nat) :
    red13 x = (rpass4 0x000E000 (rpass4 0x1FF0000 x)) &&& gf13.GFMASK := rfl

theorem red12_xor (x y : Nat) : red12 (x ^^^ y) = red12 x ^^^ red12 y := by
  rw [red12_eq_rpass, red12_eq_rpass, red12_eq_rpass, rpass2_xor, rpass2_xor,
    xor_mod_two_pow, Nat.and_xor_distrib_right]

theorem red13_xor (x y : Nat) : red13 (x ^^^ y) = red13 x ^^^ red13 y := by
  rw [red13_eq_rpass, red13_eq_rpass, red13_eq_rpass, rpass4_xor, rpass4_xor,
    Nat.and_xor_distrib_right]

theorem gf12_mul_xor_right (a b₁ b₂ : Nat) :
    gf12.gf_mul a (b₁ ^^^ b₂) = gf12.gf_mul a b₁ ^^^ gf12.gf_mul a b₂ := by
  rw [gf12_mul_eq_red, gf12_mul_eq_red, gf12_mul_eq_red, mulAcc_xor_right, red12_xor]

theorem gf12_mul_xor_left (a₁ a₂ b : Nat) :
    gf12.gf_mul (a₁ ^^^ a₂) b = gf12.gf_mul a₁ b ^^^ gf12.gf_mul a₂ b := by
  rw [gf12_mul_eq_red, gf12_mul_eq_red, gf12_mul_eq_red, mulAcc_xor_left, red12_xor]

theorem gf13_mul_xor_right (a b₁ b₂ : Nat) :
    gf13.gf_mul a (b₁ ^^^ b₂) = gf13.gf_mul a b₁ ^^^ gf13.gf_mul a b₂ := by
  rw [gf13_mul_eq_red, gf13_mul_eq_red, gf13_mul_eq_red, mulAcc_xor_right, red13_xor]

theorem gf13_mul_xor_left (a₁ a₂ b : Nat) :
    gf13.gf_mul (a₁ ^^^ a₂) b = gf13.gf_mul a₁ b ^^^ gf13.gf_mul a₂ b := by
  rw [gf13_mul_eq_red, gf13_mul_eq_red, gf13_mul_eq_red, mulAcc_xor_left, red13_xor]

/-! Output bounds: both multipliers mask their result to the field width. -/

theorem gf12_mul_lt (a b : Nat) : gf12.gf_mul a b < 2 ^ 12 := by
  rw [gf12_mul_eq_red]
  unfold red12
  have h : gf12.GFMASK = 2 ^ 12 - 1 := by decide
  rw [h]
  have := Nat.and_le_right (n := mulAcc a b 12 % 2 ^ 16 |>.xor 0) (m := 2 ^ 12 - 1)
  exact Nat.lt_of_le_of_lt Nat.and_le_right (by omega)

theorem gf13_mul_lt (a b : Nat) : gf13.gf_mul a b < 2 ^ 13 := by
  rw [gf13_mul_eq_red]
  unfold red13
  have h : gf13.GFMASK = 2 ^ 13 - 1 := by decide
  rw [h]
  exact Nat.lt_of_le_of_lt Nat.and_le_right (by omega)

/-! ### Field algebra laws obtained from bilinearity plus basis checks -/

theorem gf12_mul_comm_all :
    ∀ a b : Nat, a < 2 ^ 12 → b < 2 ^ 12 → gf12.gf_mul a b = gf12.gf_mul b a := by
  have basis : ∀ j, j < 12 → ∀ k, k < 12 →
      gf12.gf_mul (2 ^ j) (2 ^ k) = gf12.gf_mul (2 ^ k) (2 ^ j) := by decide
  have h1 : ∀ j, j < 12 → ∀ b, b < 2 ^ 12 →
      gf12.gf_mul (2 ^ j) b = gf12.gf_mul b (2 ^ j) := by
    intro j hj
    exact linext (f := fun b => gf12.gf_mul (2 ^ j) b)
      (g := fun b => gf12.gf_mul b (2 ^ j))
      (fun m₁ m₂ _ _ => gf12_mul_xor_right _ m₁ m₂)
      (fun m₁ m₂ _ _ => gf12_mul_xor_left m₁ m₂ _)
      (fun k hk => basis j hj k hk)
  intro a b ha hb
  exact linext (f := fun a => gf12.gf_mul a b) (g := fun a => gf12.gf_mul b a)
    (fun m₁ m₂ _ _ => gf12_mul_xor_left m₁ m₂ b)
    (fun m₁ m₂ _ _ => gf12_mul_xor_right b m₁ m₂)
    (fun j hj => h1 j hj b hb) a ha

theorem gf13_mul_comm_all :
    ∀ a b : Nat, a < 2 ^ 13 → b < 2 ^ 13 → gf13.gf_mul a b = gf13.gf_mul b a := by
  have basis : ∀ j, j < 13 → ∀ k, k < 13 →
      gf13.gf_mul (2 ^ j) (2 ^ k) = gf13.gf_mul (2 ^ k) (2 ^ j) := by decide
  have h1 : ∀ j, j < 13 → ∀ b, b < 2 ^ 13 →
      gf13.gf_mul (2 ^ j) b = gf13.gf_mul b (2 ^ j) := by
    intro j hj
    exact linext (f := fun b => gf13.gf_mul (2 ^ j) b)
      (g := fun b => gf13.gf_mul b (2 ^ j))
      (fun m₁ m₂ _ _ => gf13_mul_xor_right _ m₁ m₂)
      (fun m₁ m₂ _ _ => gf13_mul_xor_left m₁ m₂ _)
      (fun k hk => basis j hj k hk)
  intro a b ha hb
  exact linext (f := fun a => gf13.gf_mul a b) (g := fun a => gf13.gf_mul b a)
    (fun m₁ m₂ _ _ => gf13_mul_xor_left m₁ m₂ b)
    (fun m₁ m₂ _ _ => gf13_mul_xor_right b m₁ m₂)
    (fun j hj => h1 j hj b hb) a ha

theorem gf12_mul_one_all : ∀ a : Nat, a < 2 ^ 12 → gf12.gf_mul a 1 = a := by
  have basis : ∀ j, j < 12 → gf12.gf_mul (2 ^ j) 1 = 2 ^ j := by decide
  exact linext (f := fun a => gf12.gf_mul a 1) (g := fun a => a)
    (fun m₁ m₂ _ _ => gf12_mul_xor_left m₁ m₂ 1)
    (fun m₁ m₂ _ _ => rfl)
    basis

theorem gf13_mul_one_all : ∀ a : Nat, a < 2 ^ 13 → gf13.gf_mul a 1 = a := by
  have basis : ∀ j, j < 13 → gf13.gf_mul (2 ^ j) 1 = 2 ^ j := by decide
  exact linext (f := fun a => gf13.gf_mul a 1) (g := fun a => a)
    (fun m₁ m₂ _ _ => gf13_mul_xor_left m₁ m₂ 1)
    (fun m₁ m₂ _ _ => rfl)
    basis

theorem gf12_mul_zero_all : ∀ a : Nat, gf12.gf_mul a 0 = 0 := by
  intro a
  have h : gf12.gf_mul a 0 = gf12.gf_mul a 0 ^^^ gf12.gf_mul a 0 := by
    have := gf12_mul_xor_right a 0 0
    simpa using this
  rw [Nat.xor_self] at h
  exact h

theorem gf13_mul_zero_all : ∀ a : Nat, gf13.gf_mul a 0 = 0 := by
  intro a
  have h : gf13.gf_mul a 0 = gf13.gf_mul a 0 ^^^ gf13.gf_mul a 0 := by
    have := gf13_mul_xor_right a 0 0
    simpa using this
  rw [Nat.xor_self] at h
  exact h

theorem gf12_zero_mul_all : ∀ b : Nat, gf12.gf_mul 0 b = 0 := by
  intro b
  have h : gf12.gf_mul 0 b = gf12.gf_mul 0 b ^^^ gf12.gf_mul 0 b := by
    have := gf12_mul_xor_left 0 0 b
    simpa using this
  rw [Nat.xor_self] at h
  exact h

/-- C2: in both field engines, for all field elements a, b bounded by the
field mask, gf_add is commutative with identity 0 and self-inverse, and
gf_mul is commutative with identity 1 and absorbing element 0. -/
theorem c2_field_algebra_laws :
    (∀ a b : Nat, a ≤ gf12.GFMASK → b ≤ gf12.GFMASK →
      gf12.gf_add a b = gf12.gf_add b a ∧ gf12.gf_add a 0 = a ∧
      gf12.gf_add a a = 0 ∧ gf12.gf_mul a b = gf12.gf_mul b a ∧
      gf12.gf_mul a 1 = a ∧ gf12.gf_mul a 0 = 0) ∧
    (∀ a b : Nat, a ≤ gf13.GFMASK → b ≤ gf13.GFMASK →
      gf13.gf_add a b = gf13.gf_add b a ∧ gf13.gf_add a 0 = a ∧
      gf13.gf_add a a = 0 ∧ gf13.gf_mul a b = gf13.gf_mul b a ∧
      gf13.gf_mul a 1 = a ∧ gf13.gf_mul a 0 = 0) := by
  constructor
  · intro a b ha hb
    have ha' : a < 2 ^ 12 := by
      have : gf12.GFMASK = 2 ^ 12 - 1 := by decide
      omega
    have hb' : b < 2 ^ 12 := by
      have : gf12.GFMASK = 2 ^ 12 - 1 := by decide
      omega
    refine ⟨Nat.xor_comm a b, Nat.xor_zero a, Nat.xor_self a, ?_, ?_, ?_⟩
    · exact gf12_mul_comm_all a b ha' hb'
    · exact gf12_mul_one_all a ha'
    · exact gf12_mul_zero_all a
  · intro a b ha hb
    have ha' : a < 2 ^ 13 := by
      have : gf13.GFMASK = 2 ^ 13 - 1 := by decide
      omega
    have hb' : b < 2 ^ 13 := by
      have : gf13.GFMASK = 2 ^ 13 - 1 := by decide
      omega
    refine ⟨Nat.xor_comm a b, Nat.xor_zero a, Nat.xor_self a, ?_, ?_, ?_⟩
    · exact gf13_mul_comm_all a b ha' hb'
    · exact gf13_mul_one_all a ha'
    · exact gf13_mul_zero_all a

/-- Witness for C2 at concrete inputs a = 125, b = 19 in both engines. -/
theorem c2_field_algebra_laws_witness :
    gf12.gf_mul 125 19 = gf12.gf_mul 19 125 ∧
    gf13.gf_mul 125 19 = gf13.gf_mul 19 125 :=
  ⟨(c2_field_algebra_laws.1 125 19 (by decide) (by decide)).2.2.2.1,
   (c2_field_algebra_laws.2 125 19 (by decide) (by decide)).2.2.2.1⟩

/-! ### Linearity of the fused square-multiply paths of the 13-bit engine -/

theorem xor_interchange (a b c d : Nat) :
    (a ^^^ b) ^^^ (c ^^^ d) = (a ^^^ c) ^^^ (b ^^^ d) := by
  simp only [Nat.xor_assoc]
  rw [natXor_left_comm b c]

theorem pow_mul_xor_distrib (x y k : Nat) :
    2 ^ k * (x ^^^ y) = (2 ^ k * x) ^^^ (2 ^ k * y) := by
  rw [Nat.mul_comm, Nat.mul_comm (2 ^ k) x, Nat.mul_comm (2 ^ k) y]
  exact xor_mul_pow_distrib x y k

/-- Multiplication by a value masked to two bit positions at distance at
least 13 is XOR-linear in a 13-bit multiplicand: the two selected shifted
copies cannot interact through carries. -/
theorem mul_and_mask_xor (c M lo hi m₁ m₂ : Nat)
    (hM : M = (1 <<< lo) ||| (1 <<< hi)) (hgap : lo + 13 ≤ hi)
    (h₁ : m₁ < 2 ^ 13) (h₂ : m₂ < 2 ^ 13) :
    (m₁ ^^^ m₂) * (c &&& M) = m₁ * (c &&& M) ^^^ m₂ * (c &&& M) := by
  subst hM
  rw [Nat.one_shiftLeft, Nat.one_shiftLeft, Nat.and_or_distrib_left,
    Nat.and_two_pow, Nat.and_two_pow]
  cases hlo : c.testBit lo with
  | false =>
    cases hhi : c.testBit hi with
    | false => simp
    | true =>
      simp only [Bool.toNat_false, Bool.toNat_true, Nat.zero_mul, Nat.one_mul,
        Nat.zero_or]
      exact xor_mul_pow_distrib m₁ m₂ hi
  | true =>
    cases hhi : c.testBit hi with
    | false =>
      simp only [Bool.toNat_false, Bool.toNat_true, Nat.zero_mul, Nat.one_mul,
        Nat.or_zero]
      exact xor_mul_pow_distrib m₁ m₂ lo
    | true =>
      simp only [Bool.toNat_true, Nat.one_mul]
      have hlohi : (2 : Nat) ^ lo < 2 ^ hi :=
        Nat.pow_lt_pow_right (by omega) (by omega)
      have hor : (2 : Nat) ^ lo ||| 2 ^ hi = 2 ^ hi + 2 ^ lo := by
        rw [Nat.or_comm]
        have := Nat.mul_add_lt_is_or (i := hi) (b := 2 ^ lo) hlohi 1
        simpa using this.symm
      rw [hor]
      have key : ∀ m, m < 2 ^ 13 → m * (2 ^ hi + 2 ^ lo) =
          (2 ^ hi * m) ^^^ (m * 2 ^ lo) := by
        intro m hm
        have hb : m * 2 ^ lo < 2 ^ hi := by
          have h1 : m * 2 ^ lo < 2 ^ 13 * 2 ^ lo := by
            exact (Nat.mul_lt_mul_right (Nat.pos_pow_of_pos lo (by omega))).mpr hm
          have h2 : (2 : Nat) ^ 13 * 2 ^ lo ≤ 2 ^ hi := by
            rw [← Nat.pow_add]
            exact Nat.pow_le_pow_right (by omega) (by omega)
          omega
        have hsplit : m * (2 ^ hi + 2 ^ lo) = 2 ^ hi * m + m * 2 ^ lo := by ring
        rw [hsplit]
        exact mul_pow_add_eq_xor m (m * 2 ^ lo) hi hb
      rw [key _ (Nat.xor_lt_two_pow h₁ h₂), key _ h₁, key _ h₂,
        xor_mul_pow_distrib, pow_mul_xor_distrib]
      exact xor_interchange _ _ _ _

/-- The accumulation phase of gf_sqmul, before the reduction passes. -/
def sqmulAcc (input m : Nat) : Nat :=
  let t0 := input
  let t1 := m
  let x := (t1 <<< 6) * (t0 &&& (1 <<< 6))
  let t0 := t0 ^^^ (t0 <<< 7)
  let x := x ^^^ (t1 * (t0 &&& 0x04001))
  let x := x ^^^ ((t1 * (t0 &&& 0x08002)) <<< 1)
  let x := x ^^^ ((t1 * (t0 &&& 0x10004)) <<< 2)
  let x := x ^^^ ((t1 * (t0 &&& 0x20008)) <<< 3)
  let x := x ^^^ ((t1 * (t0 &&& 0x40010)) <<< 4)
  x ^^^ ((t1 * (t0 &&& 0x80020)) <<< 5)

theorem gf13_sqmul_eq (a m : Nat) : gf13.gf_sqmul a m =
    (rpass4 0x000000000007E000 (rpass4 0x000000000FF80000
      (rpass4 0x0000001FF0000000 (sqmulAcc a m)))) &&& gf13.GFMASK := rfl

/-- The accumulation phase of gf_sq2mul, before the reduction passes. -/
def sq2mulAcc (input m : Nat) : Nat :=
  let t0 := input
  let t1 := m
  let x := (t1 <<< 18) * (t0 &&& (1 <<< 6))
  let t0 := t0 ^^^ (t0 <<< 21)
  let x := x ^^^ ((t1 * (t0 &&& 0x010000001)) % 2 ^ 64)
  let x := x ^^^ (((t1 * (t0 &&& 0x020000002)) <<< 3) % 2 ^ 64)
  let x := x ^^^ (((t1 * (t0 &&& 0x040000004)) <<< 6) % 2 ^ 64)
  let x := x ^^^ (((t1 * (t0 &&& 0x080000008)) <<< 9) % 2 ^ 64)
  let x := x ^^^ (((t1 * (t0 &&& 0x100000010)) <<< 12) % 2 ^ 64)
  x ^^^ (((t1 * (t0 &&& 0x200000020)) <<< 15) % 2 ^ 64)

theorem gf13_sq2mul_eq (a m : Nat) : gf13.gf_sq2mul a m =
    (rpass4 0x000000000001E000 (rpass4 0x0000000001FE0000
      (rpass4 0x00000003FE000000 (rpass4 0x000007FC00000000
        (rpass4 0x000FF80000000000 (rpass4 0x1FF0000000000000
          (sq2mulAcc a m))))))) &&& gf13.GFMASK := rfl

theorem xor_chain7 (a0 a1 a2 a3 a4 a5 a6 b0 b1 b2 b3 b4 b5 b6 : Nat) :
    ((((((a0 ^^^ b0) ^^^ (a1 ^^^ b1)) ^^^ (a2 ^^^ b2)) ^^^ (a3 ^^^ b3)) ^^^
      (a4 ^^^ b4)) ^^^ (a5 ^^^ b5)) ^^^ (a6 ^^^ b6) =
    ((((((a0 ^^^ a1) ^^^ a2) ^^^ a3) ^^^ a4) ^^^ a5) ^^^ a6) ^^^
    ((((((b0 ^^^ b1) ^^^ b2) ^^^ b3) ^^^ b4) ^^^ b5) ^^^ b6) := by
  ac_rfl

theorem xor_chain6 (a1 a2 a3 a4 a5 a6 b1 b2 b3 b4 b5 b6 : Nat) :
    (((((a1 ^^^ b1) ^^^ (a2 ^^^ b2)) ^^^ (a3 ^^^ b3)) ^^^ (a4 ^^^ b4)) ^^^
      (a5 ^^^ b5)) ^^^ (a6 ^^^ b6) =
    (((((a1 ^^^ a2) ^^^ a3) ^^^ a4) ^^^ a5) ^^^ a6) ^^^
    (((((b1 ^^^ b2) ^^^ b3) ^^^ b4) ^^^ b5) ^^^ b6) := by
  ac_rfl

theorem sqmulAcc_xor (a m₁ m₂ : Nat) (h₁ : m₁ < 2 ^ 13) (h₂ : m₂ < 2 ^ 13) :
    sqmulAcc a (m₁ ^^^ m₂) = sqmulAcc a m₁ ^^^ sqmulAcc a m₂ := by
  simp only [sqmulAcc]
  rw [mul_and_mask_xor _ 0x04001 0 14 m₁ m₂ (by decide) (by omega) h₁ h₂,
    mul_and_mask_xor _ 0x08002 1 15 m₁ m₂ (by decide) (by omega) h₁ h₂,
    mul_and_mask_xor _ 0x10004 2 16 m₁ m₂ (by decide) (by omega) h₁ h₂,
    mul_and_mask_xor _ 0x20008 3 17 m₁ m₂ (by decide) (by omega) h₁ h₂,
    mul_and_mask_xor _ 0x40010 4 18 m₁ m₂ (by decide) (by omega) h₁ h₂,
    mul_and_mask_xor _ 0x80020 5 19 m₁ m₂ (by decide) (by omega) h₁ h₂,
    Nat.one_shiftLeft, Nat.and_two_pow]
  cases h6 : a.testBit 6 with
  | false =>
    simp only [Bool.toNat_false, Nat.zero_mul, Nat.mul_zero, Nat.zero_xor,
      xor_shiftLeft_distrib]
    exact xor_chain6 _ _ _ _ _ _ _ _ _ _ _ _
  | true =>
    simp only [Bool.toNat_true, Nat.one_mul, xor_shiftLeft_distrib,
      xor_mul_pow_distrib]
    exact xor_chain7 _ _ _ _ _ _ _ _ _ _ _ _ _ _

theorem sq2mulAcc_xor (a m₁ m₂ : Nat) (h₁ : m₁ < 2 ^ 13) (h₂ : m₂ < 2 ^ 13) :
    sq2mulAcc a (m₁ ^^^ m₂) = sq2mulAcc a m₁ ^^^ sq2mulAcc a m₂ := by
  simp only [sq2mulAcc]
  rw [mul_and_mask_xor _ 0x010000001 0 28 m₁ m₂ (by decide) (by omega) h₁ h₂,
    mul_and_mask_xor _ 0x020000002 1 29 m₁ m₂ (by decide) (by omega) h₁ h₂,
    mul_and_mask_xor _ 0x040000004 2 30 m₁ m₂ (by decide) (by omega) h₁ h₂,
    mul_and_mask_xor _ 0x080000008 3 31 m₁ m₂ (by decide) (by omega) h₁ h₂,
    mul_and_mask_xor _ 0x100000010 4 32 m₁ m₂ (by decide) (by omega) h₁ h₂,
    mul_and_mask_xor _ 0x200000020 5 33 m₁ m₂ (by decide) (by omega) h₁ h₂,
    Nat.one_shiftLeft, Nat.and_two_pow]
  cases h6 : a.testBit 6 with
  | false =>
    simp only [Bool.toNat_false, Nat.zero_mul, Nat.mul_zero, Nat.zero_xor,
      xor_shiftLeft_distrib, xor_mod_two_pow]
    exact xor_chain6 _ _ _ _ _ _ _ _ _ _ _ _
  | true =>
    simp only [Bool.toNat_true, Nat.one_mul, xor_shiftLeft_distrib,
      xor_mod_two_pow, xor_mul_pow_distrib]
    exact xor_chain7 _ _ _ _ _ _ _ _ _ _ _ _ _ _

theorem gf13_sqmul_xor_right (a m₁ m₂ : Nat) (h₁ : m₁ < 2 ^ 13) (h₂ : m₂ < 2 ^ 13) :
    gf13.gf_sqmul a (m₁ ^^^ m₂) = gf13.gf_sqmul a m₁ ^^^ gf13.gf_sqmul a m₂ := by
  rw [gf13_sqmul_eq, gf13_sqmul_eq, gf13_sqmul_eq, sqmulAcc_xor a m₁ m₂ h₁ h₂,
    rpass4_xor, rpass4_xor, rpass4_xor, Nat.and_xor_distrib_right]

theorem gf13_sq2mul_xor_right (a m₁ m₂ : Nat) (h₁ : m₁ < 2 ^ 13) (h₂ : m₂ < 2 ^ 13) :
    gf13.gf_sq2mul a (m₁ ^^^ m₂) = gf13.gf_sq2mul a m₁ ^^^ gf13.gf_sq2mul a m₂ := by
  rw [gf13_sq2mul_eq, gf13_sq2mul_eq, gf13_sq2mul_eq, sq2mulAcc_xor a m₁ m₂ h₁ h₂,
    rpass4_xor, rpass4_xor, rpass4_xor, rpass4_xor, rpass4_xor, rpass4_xor,
    Nat.and_xor_distrib_right]

/-! ### Balanced exhaustive checking over power-of-two ranges

Nat.decidableBallLT recurses linearly and overflows the stack on ranges of
cryptographic size; this balanced checker keeps the evaluation depth
logarithmic so the kernel can evaluate it. -/

def allPow (f : Nat → Bool) : Nat → Nat → Bool
  | 0, lo => f lo
  | d + 1, lo => allPow f d lo && allPow f d (lo + 2 ^ d)

theorem allPow_spec (f : Nat → Bool) (d : Nat) :
    ∀ lo, allPow f d lo = true → ∀ i, i < 2 ^ d → f (lo + i) = true := by
  induction d with
  | zero =>
    intro lo h i hi
    have : i = 0 := by omega
    subst this
    simpa using h
  | succ d ih =>
    intro lo h i hi
    rw [allPow, Bool.and_eq_true] at h
    have hp : (2 : Nat) ^ (d + 1) = 2 ^ d + 2 ^ d := by rw [Nat.pow_succ]; omega
    rcases Nat.lt_or_ge i (2 ^ d) with hlt | hge
    · exact ih lo h.1 i hlt
    · have := ih (lo + 2 ^ d) h.2 (i - 2 ^ d) (by omega)
      rw [show lo + 2 ^ d + (i - 2 ^ d) = lo + i by omega] at this
      exact this

theorem ball_of_allPow {P : Nat → Prop} [inst : DecidablePred P] {d : Nat}
    (h : allPow (fun a => decide (P a)) d 0 = true) : ∀ a, a < 2 ^ d → P a := by
  intro a ha
  have := allPow_spec (fun a => decide (P a)) d 0 h a ha
  simp only [Nat.zero_add] at this
  exact of_decide_eq_true this

/-! ### Unrolled evaluation forms

These are definitionally equal to the engine operations (the accumulation
loops unrolled, powers written as literals); the kernel evaluates them
noticeably faster during the exhaustive checks below. -/

def fmul12 (a b : Nat) : Nat :=
  let tmp := a*(b&&&1) ^^^ a*(b&&&2) ^^^ a*(b&&&4) ^^^ a*(b&&&8) ^^^ a*(b&&&16) ^^^
    a*(b&&&32) ^^^ a*(b&&&64) ^^^ a*(b&&&128) ^^^ a*(b&&&256) ^^^ a*(b&&&512) ^^^
    a*(b&&&1024) ^^^ a*(b&&&2048)
  let t := tmp &&& 0x7FC000
  let tmp := tmp ^^^ (t >>> 9)
  let tmp := tmp ^^^ (t >>> 12)
  let t := tmp &&& 0x3000
  let tmp := tmp ^^^ (t >>> 9)
  let tmp := tmp ^^^ (t >>> 12)
  (tmp % 65536) &&& 4095

def fsq12 (x0 : Nat) : Nat :=
  let x := (x0 ||| (x0 <<< 8)) &&& 0x00FF00FF
  let x := (x ||| (x <<< 4)) &&& 0x0F0F0F0F
  let x := (x ||| (x <<< 2)) &&& 0x33333333
  let x := (x ||| (x <<< 1)) &&& 0x55555555
  let t := x &&& 0x7FC000
  let x := x ^^^ (t >>> 9)
  let x := x ^^^ (t >>> 12)
  let t := x &&& 0x3000
  let x := x ^^^ (t >>> 9)
  let x := x ^^^ (t >>> 12)
  (x % 65536) &&& 4095

def finv12 (a : Nat) : Nat :=
  let out := fsq12 a
  let tmp_11 := fmul12 out a
  let out := fsq12 tmp_11
  let out := fsq12 out
  let tmp_1111 := fmul12 out tmp_11
  let out := fsq12 tmp_1111
  let out := fsq12 out
  let out := fsq12 out
  let out := fsq12 out
  let out := fmul12 out tmp_1111
  let out := fsq12 out
  let out := fsq12 out
  let out := fmul12 out tmp_11
  let out := fsq12 out
  let out := fmul12 out a
  fsq12 out

theorem fmul12_eq (a b : Nat) : gf12.gf_mul a b = fmul12 a b := rfl

theorem fsq12_eq (a : Nat) : gf12.gf_sq a = fsq12 a := rfl

theorem finv12_eq (a : Nat) : gf12.gf_inv a = finv12 a := rfl

def fmul13 (a b : Nat) : Nat :=
  let tmp := a*(b&&&1) ^^^ a*(b&&&2) ^^^ a*(b&&&4) ^^^ a*(b&&&8) ^^^ a*(b&&&16) ^^^
    a*(b&&&32) ^^^ a*(b&&&64) ^^^ a*(b&&&128) ^^^ a*(b&&&256) ^^^ a*(b&&&512) ^^^
    a*(b&&&1024) ^^^ a*(b&&&2048) ^^^ a*(b&&&4096)
  let t := tmp &&& 0x1FF0000
  let tmp := tmp ^^^ ((t >>> 9) ^^^ (t >>> 10) ^^^ (t >>> 12) ^^^ (t >>> 13))
  let t := tmp &&& 0x000E000
  let tmp := tmp ^^^ ((t >>> 9) ^^^ (t >>> 10) ^^^ (t >>> 12) ^^^ (t >>> 13))
  tmp &&& 8191

def fsq2 (a : Nat) : Nat :=
  let x := (a ||| (a <<< 24)) &&& 0x000000FF000000FF
  let x := (x ||| (x <<< 12)) &&& 0x000F000F000F000F
  let x := (x ||| (x <<< 6)) &&& 0x0303030303030303
  let x := (x ||| (x <<< 3)) &&& 0x1111111111111111
  let t := x &&& 0x0001FF0000000000
  let x := x ^^^ ((t >>> 9) ^^^ (t >>> 10) ^^^ (t >>> 12) ^^^ (t >>> 13))
  let t := x &&& 0x000000FF80000000
  let x := x ^^^ ((t >>> 9) ^^^ (t >>> 10) ^^^ (t >>> 12) ^^^ (t >>> 13))
  let t := x &&& 0x000000007FC00000
  let x := x ^^^ ((t >>> 9) ^^^ (t >>> 10) ^^^ (t >>> 12) ^^^ (t >>> 13))
  let t := x &&& 0x00000000003FE000
  let x := x ^^^ ((t >>> 9) ^^^ (t >>> 10) ^^^ (t >>> 12) ^^^ (t >>> 13))
  x &&& 8191

def fsqmul (a m : Nat) : Nat :=
  let t0 := a ^^^ (a <<< 7)
  let x := (m <<< 6) * (a &&& 64)
  let x := x ^^^ (m * (t0 &&& 0x04001))
  let x := x ^^^ ((m * (t0 &&& 0x08002)) <<< 1)
  let x := x ^^^ ((m * (t0 &&& 0x10004)) <<< 2)
  let x := x ^^^ ((m * (t0 &&& 0x20008)) <<< 3)
  let x := x ^^^ ((m * (t0 &&& 0x40010)) <<< 4)
  let x := x ^^^ ((m * (t0 &&& 0x80020)) <<< 5)
  let t := x &&& 0x0000001FF0000000
  let x := x ^^^ ((t >>> 9) ^^^ (t >>> 10) ^^^ (t >>> 12) ^^^ (t >>> 13))
  let t := x &&& 0x000000000FF80000
  let x := x ^^^ ((t >>> 9) ^^^ (t >>> 10) ^^^ (t >>> 12) ^^^ (t >>> 13))
  let t := x &&& 0x000000000007E000
  let x := x ^^^ ((t >>> 9) ^^^ (t >>> 10) ^^^ (t >>> 12) ^^^ (t >>> 13))
  x &&& 8191

def fsq2mul (a m : Nat) : Nat :=
  let t0 := a ^^^ (a <<< 21)
  let x := (m <<< 18) * (a &&& 64)
  let x := x ^^^ ((m * (t0 &&& 0x010000001)) % 18446744073709551616)
  let x := x ^^^ (((m * (t0 &&& 0x020000002)) <<< 3) % 18446744073709551616)
  let x := x ^^^ (((m * (t0 &&& 0x040000004)) <<< 6) % 18446744073709551616)
  let x := x ^^^ (((m * (t0 &&& 0x080000008)) <<< 9) % 18446744073709551616)
  let x := x ^^^ (((m * (t0 &&& 0x100000010)) <<< 12) % 18446744073709551616)
  let x := x ^^^ (((m * (t0 &&& 0x200000020)) <<< 15) % 18446744073709551616)
  let t := x &&& 0x1FF0000000000000
  let x := x ^^^ ((t >>> 9) ^^^ (t >>> 10) ^^^ (t >>> 12) ^^^ (t >>> 13))
  let t := x &&& 0x000FF80000000000
  let x := x ^^^ ((t >>> 9) ^^^ (t >>> 10) ^^^ (t >>> 12) ^^^ (t >>> 13))
  let t := x &&& 0x000007FC00000000
  let x := x ^^^ ((t >>> 9) ^^^ (t >>> 10) ^^^ (t >>> 12) ^^^ (t >>> 13))
  let t := x &&& 0x00000003FE000000
  let x := x ^^^ ((t >>> 9) ^^^ (t >>> 10) ^^^ (t >>> 12) ^^^ (t >>> 13))
  let t := x &&& 0x0000000001FE0000
  let x := x ^^^ ((t >>> 9) ^^^ (t >>> 10) ^^^ (t >>> 12) ^^^ (t >>> 13))
  let t := x &&& 0x000000000001E000
  let x := x ^^^ ((t >>> 9) ^^^ (t >>> 10) ^^^ (t >>> 12) ^^^ (t >>> 13))
  x &&& 8191

def ffrac (den num : Nat) : Nat :=
  let tmp_11 := fsqmul den den
  let tmp_1111 := fsq2mul tmp_11 tmp_11
  let out := fsq2 tmp_1111
  let out := fsq2mul out tmp_1111
  let out := fsq2 out
  let out := fsq2mul out tmp_1111
  fsqmul out num

theorem fmul13_eq (a b : Nat) : gf13.gf_mul a b = fmul13 a b := rfl

theorem fsq2_eq (a : Nat) : gf13.gf_sq2 a = fsq2 a := rfl

theorem fsqmul_eq (a m : Nat) : gf13.gf_sqmul a m = fsqmul a m := rfl

theorem fsq2mul_eq (a m : Nat) : gf13.gf_sq2mul a m = fsq2mul a m := rfl

theorem ffrac_eq (den num : Nat) : gf13.gf_frac den num = ffrac den num := rfl

/-! ### Left linearity of the fused paths (squaring is linear in char 2) -/

theorem xor_cancel_left (a b : Nat) : a ^^^ (a ^^^ b) = b := by
  rw [← Nat.xor_assoc, Nat.xor_self, Nat.zero_xor]

theorem mul_pow_lt (m lo hi : Nat) (hgap : lo + 13 ≤ hi) (hm : m < 2 ^ 13) :
    m * 2 ^ lo < 2 ^ hi := by
  have h1 : m * 2 ^ lo < 2 ^ 13 * 2 ^ lo :=
    (Nat.mul_lt_mul_right (Nat.pos_pow_of_pos lo (by omega))).mpr hm
  have h2 : (2 : Nat) ^ 13 * 2 ^ lo ≤ 2 ^ hi := by
    rw [← Nat.pow_add]
    exact Nat.pow_le_pow_right (by omega) (by omega)
  omega

theorem mul_two_bit (m lo hi : Nat) (b0 b1 : Bool) (hgap : lo + 13 ≤ hi)
    (hm : m < 2 ^ 13) :
    m * (b0.toNat * 2 ^ lo ||| b1.toNat * 2 ^ hi) =
      b0.toNat * (m * 2 ^ lo) ^^^ b1.toNat * (2 ^ hi * m) := by
  cases b0 <;> cases b1 <;>
    simp only [Bool.toNat_false, Bool.toNat_true, Nat.zero_mul, Nat.one_mul,
      Nat.mul_zero, Nat.zero_or, Nat.or_zero, Nat.zero_xor, Nat.xor_zero]
  · exact Nat.mul_comm m (2 ^ hi)
  · have hlohi : (2 : Nat) ^ lo < 2 ^ hi :=
      Nat.pow_lt_pow_right (by omega) (by omega)
    have hor : (2 : Nat) ^ lo ||| 2 ^ hi = 2 ^ hi + 2 ^ lo := by
      rw [Nat.or_comm]
      have := Nat.mul_add_lt_is_or (i := hi) (b := 2 ^ lo) hlohi 1
      simpa using this.symm
    have key : m * (2 ^ hi + 2 ^ lo) = m * 2 ^ lo ^^^ 2 ^ hi * m := by
      rw [show m * (2 ^ hi + 2 ^ lo) = 2 ^ hi * m + m * 2 ^ lo from by ring,
        mul_pow_add_eq_xor m (m * 2 ^ lo) hi (mul_pow_lt m lo hi hgap hm),
        Nat.xor_comm]
    rw [hor, ← key]

theorem mul_and_mask_xor_left (m w₁ w₂ M lo hi : Nat)
    (hM : M = (1 <<< lo) ||| (1 <<< hi)) (hgap : lo + 13 ≤ hi)
    (hm : m < 2 ^ 13) :
    m * ((w₁ ^^^ w₂) &&& M) = m * (w₁ &&& M) ^^^ m * (w₂ &&& M) := by
  subst hM
  rw [Nat.one_shiftLeft, Nat.one_shiftLeft]
  rw [Nat.and_or_distrib_left, Nat.and_or_distrib_left, Nat.and_or_distrib_left]
  rw [Nat.and_two_pow, Nat.and_two_pow, Nat.and_two_pow, Nat.and_two_pow,
    Nat.and_two_pow, Nat.and_two_pow]
  rw [mul_two_bit m lo hi _ _ hgap hm, mul_two_bit m lo hi _ _ hgap hm,
    mul_two_bit m lo hi _ _ hgap hm]
  simp only [Nat.testBit_xor]
  cases h1 : w₁.testBit lo <;> cases h2 : w₂.testBit lo <;>
    cases h3 : w₁.testBit hi <;> cases h4 : w₂.testBit hi <;>
    simp [Nat.xor_assoc, Nat.xor_comm, natXor_left_comm, xor_cancel_left]

theorem mul_and_single_xor (c w₁ w₂ p : Nat) :
    c * ((w₁ ^^^ w₂) &&& (1 <<< p)) =
      c * (w₁ &&& (1 <<< p)) ^^^ c * (w₂ &&& (1 <<< p)) := by
  rw [Nat.one_shiftLeft, Nat.and_xor_distrib_right, Nat.and_two_pow,
    Nat.and_two_pow]
  cases h1 : w₁.testBit p <;> cases h2 : w₂.testBit p <;>
    simp [Nat.xor_self]

theorem sqmulAcc_xor_left (a₁ a₂ m : Nat) (hm : m < 2 ^ 13) :
    sqmulAcc (a₁ ^^^ a₂) m = sqmulAcc a₁ m ^^^ sqmulAcc a₂ m := by
  simp only [sqmulAcc]
  rw [show (a₁ ^^^ a₂) ^^^ (a₁ ^^^ a₂) <<< 7 =
      (a₁ ^^^ a₁ <<< 7) ^^^ (a₂ ^^^ a₂ <<< 7) from by
    rw [xor_shiftLeft_distrib]; exact xor_interchange _ _ _ _]
  rw [mul_and_mask_xor_left m _ _ 0x04001 0 14 (by decide) (by omega) hm,
    mul_and_mask_xor_left m _ _ 0x08002 1 15 (by decide) (by omega) hm,
    mul_and_mask_xor_left m _ _ 0x10004 2 16 (by decide) (by omega) hm,
    mul_and_mask_xor_left m _ _ 0x20008 3 17 (by decide) (by omega) hm,
    mul_and_mask_xor_left m _ _ 0x40010 4 18 (by decide) (by omega) hm,
    mul_and_mask_xor_left m _ _ 0x80020 5 19 (by decide) (by omega) hm,
    mul_and_single_xor]
  simp only [xor_shiftLeft_distrib]
  exact xor_chain7 _ _ _ _ _ _ _ _ _ _ _ _ _ _

theorem sq2mulAcc_xor_left (a₁ a₂ m : Nat) (hm : m < 2 ^ 13) :
    sq2mulAcc (a₁ ^^^ a₂) m = sq2mulAcc a₁ m ^^^ sq2mulAcc a₂ m := by
  simp only [sq2mulAcc]
  rw [show (a₁ ^^^ a₂) ^^^ (a₁ ^^^ a₂) <<< 21 =
      (a₁ ^^^ a₁ <<< 21) ^^^ (a₂ ^^^ a₂ <<< 21) from by
    rw [xor_shiftLeft_distrib]; exact xor_interchange _ _ _ _]
  rw [mul_and_mask_xor_left m _ _ 0x010000001 0 28 (by decide) (by omega) hm,
    mul_and_mask_xor_left m _ _ 0x020000002 1 29 (by decide) (by omega) hm,
    mul_and_mask_xor_left m _ _ 0x040000004 2 30 (by decide) (by omega) hm,
    mul_and_mask_xor_left m _ _ 0x080000008 3 31 (by decide) (by omega) hm,
    mul_and_mask_xor_left m _ _ 0x100000010 4 32 (by decide) (by omega) hm,
    mul_and_mask_xor_left m _ _ 0x200000020 5 33 (by decide) (by omega) hm,
    mul_and_single_xor]
  simp only [xor_shiftLeft_distrib, xor_mod_two_pow]
  exact xor_chain7 _ _ _ _ _ _ _ _ _ _ _ _ _ _

theorem gf13_sqmul_xor_left (a₁ a₂ m : Nat) (hm : m < 2 ^ 13) :
    gf13.gf_sqmul (a₁ ^^^ a₂) m = gf13.gf_sqmul a₁ m ^^^ gf13.gf_sqmul a₂ m := by
  rw [gf13_sqmul_eq, gf13_sqmul_eq, gf13_sqmul_eq, sqmulAcc_xor_left a₁ a₂ m hm,
    rpass4_xor, rpass4_xor, rpass4_xor, Nat.and_xor_distrib_right]

theorem gf13_sq2mul_xor_left (a₁ a₂ m : Nat) (hm : m < 2 ^ 13) :
    gf13.gf_sq2mul (a₁ ^^^ a₂) m = gf13.gf_sq2mul a₁ m ^^^ gf13.gf_sq2mul a₂ m := by
  rw [gf13_sq2mul_eq, gf13_sq2mul_eq, gf13_sq2mul_eq,
    sq2mulAcc_xor_left a₁ a₂ m hm, rpass4_xor, rpass4_xor, rpass4_xor,
    rpass4_xor, rpass4_xor, rpass4_xor, Nat.and_xor_distrib_right]

/-- Squaring (as gf_mul of an element with itself) is XOR-linear on field
elements: the cross terms cancel by commutativity. -/
theorem gf13_sq_linear (u v : Nat) (hu : u < 2 ^ 13) (hv : v < 2 ^ 13) :
    gf13.gf_mul (u ^^^ v) (u ^^^ v) = gf13.gf_mul u u ^^^ gf13.gf_mul v v := by
  rw [gf13_mul_xor_left, gf13_mul_xor_right, gf13_mul_xor_right,
    gf13_mul_comm_all v u hv hu]
  simp only [Nat.xor_assoc]
  rw [xor_cancel_left]

theorem gf12_sq_linear (u v : Nat) (hu : u < 2 ^ 12) (hv : v < 2 ^ 12) :
    gf12.gf_mul (u ^^^ v) (u ^^^ v) = gf12.gf_mul u u ^^^ gf12.gf_mul v v := by
  rw [gf12_mul_xor_left, gf12_mul_xor_right, gf12_mul_xor_right,
    gf12_mul_comm_all v u hv hu]
  simp only [Nat.xor_assoc]
  rw [xor_cancel_left]

/-! ### Exhaustive kernel-evaluated checks and the inversion/fused-path claims -/

theorem gf12_mask_iff (a : Nat) : a ≤ gf12.GFMASK ↔ a < 2 ^ 12 := by
  have h : gf12.GFMASK = 2 ^ 12 - 1 := by decide
  omega

theorem gf13_mask_iff (a : Nat) : a ≤ gf13.GFMASK ↔ a < 2 ^ 13 := by
  have h : gf13.GFMASK = 2 ^ 13 - 1 := by decide
  omega

theorem allPow_split12 (g : Nat → Bool) :
    allPow g 12 0 = ((allPow g 10 0 && allPow g 10 1024) &&
      (allPow g 10 2048 && allPow g 10 3072)) := rfl

theorem allPow_split13 (g : Nat → Bool) :
    allPow g 13 0 = (((allPow g 10 0 && allPow g 10 1024) &&
      (allPow g 10 2048 && allPow g 10 3072)) &&
     ((allPow g 10 4096 && allPow g 10 5120) &&
      (allPow g 10 6144 && allPow g 10 7168))) := rfl

theorem inv12_check_0 :
    allPow (fun a => decide (a ≠ 0 → fmul12 a (finv12 a) = 1)) 10 0 = true := by
  decide!

theorem inv12_check_1 :
    allPow (fun a => decide (a ≠ 0 → fmul12 a (finv12 a) = 1)) 10 1024 =
      true := by
  decide!

theorem inv12_check_2 :
    allPow (fun a => decide (a ≠ 0 → fmul12 a (finv12 a) = 1)) 10 2048 =
      true := by
  decide!

theorem inv12_check_3 :
    allPow (fun a => decide (a ≠ 0 → fmul12 a (finv12 a) = 1)) 10 3072 =
      true := by
  decide!

theorem inv12_check :
    allPow (fun a => decide (a ≠ 0 → fmul12 a (finv12 a) = 1)) 12 0 = true := by
  rw [allPow_split12, inv12_check_0, inv12_check_1, inv12_check_2,
    inv12_check_3]
  rfl

theorem sq12_check_0 :
    allPow (fun a => decide (fsq12 a = fmul12 a a)) 10 0 = true := by
  decide!

theorem sq12_check_1 :
    allPow (fun a => decide (fsq12 a = fmul12 a a)) 10 1024 = true := by
  decide!

theorem sq12_check_2 :
    allPow (fun a => decide (fsq12 a = fmul12 a a)) 10 2048 = true := by
  decide!

theorem sq12_check_3 :
    allPow (fun a => decide (fsq12 a = fmul12 a a)) 10 3072 = true := by
  decide!

theorem sq12_check :
    allPow (fun a => decide (fsq12 a = fmul12 a a)) 12 0 = true := by
  rw [allPow_split12, sq12_check_0, sq12_check_1, sq12_check_2, sq12_check_3]
  rfl

theorem inv13_check_0 :
    allPow (fun a => decide (a ≠ 0 → fmul13 a (ffrac a 1) = 1)) 10 0 = true := by
  decide!

theorem inv13_check_1 :
    allPow (fun a => decide (a ≠ 0 → fmul13 a (ffrac a 1) = 1)) 10 1024 =
      true := by
  decide!

theorem inv13_check_2 :
    allPow (fun a => decide (a ≠ 0 → fmul13 a (ffrac a 1) = 1)) 10 2048 =
      true := by
  decide!

theorem inv13_check_3 :
    allPow (fun a => decide (a ≠ 0 → fmul13 a (ffrac a 1) = 1)) 10 3072 =
      true := by
  decide!

theorem inv13_check_4 :
    allPow (fun a => decide (a ≠ 0 → fmul13 a (ffrac a 1) = 1)) 10 4096 =
      true := by
  decide!

theorem inv13_check_5 :
    allPow (fun a => decide (a ≠ 0 → fmul13 a (ffrac a 1) = 1)) 10 5120 =
      true := by
  decide!

theorem inv13_check_6 :
    allPow (fun a => decide (a ≠ 0 → fmul13 a (ffrac a 1) = 1)) 10 6144 =
      true := by
  decide!

theorem inv13_check_7 :
    allPow (fun a => decide (a ≠ 0 → fmul13 a (ffrac a 1) = 1)) 10 7168 =
      true := by
  decide!

theorem inv13_check :
    allPow (fun a => decide (a ≠ 0 → fmul13 a (ffrac a 1) = 1)) 13 0 = true := by
  rw [allPow_split13, inv13_check_0, inv13_check_1, inv13_check_2,
    inv13_check_3, inv13_check_4, inv13_check_5, inv13_check_6, inv13_check_7]
  rfl

theorem sq2_13_check_0 :
    allPow (fun a => decide (fsq2 a = fmul13 (fmul13 a a) (fmul13 a a))) 10 0 =
      true := by
  decide!

theorem sq2_13_check_1 :
    allPow (fun a => decide (fsq2 a = fmul13 (fmul13 a a) (fmul13 a a))) 10
      1024 = true := by
  decide!

theorem sq2_13_check_2 :
    allPow (fun a => decide (fsq2 a = fmul13 (fmul13 a a) (fmul13 a a))) 10
      2048 = true := by
  decide!

theorem sq2_13_check_3 :
    allPow (fun a => decide (fsq2 a = fmul13 (fmul13 a a) (fmul13 a a))) 10
      3072 = true := by
  decide!

theorem sq2_13_check_4 :
    allPow (fun a => decide (fsq2 a = fmul13 (fmul13 a a) (fmul13 a a))) 10
      4096 = true := by
  decide!

theorem sq2_13_check_5 :
    allPow (fun a => decide (fsq2 a = fmul13 (fmul13 a a) (fmul13 a a))) 10
      5120 = true := by
  decide!

theorem sq2_13_check_6 :
    allPow (fun a => decide (fsq2 a = fmul13 (fmul13 a a) (fmul13 a a))) 10
      6144 = true := by
  decide!

theorem sq2_13_check_7 :
    allPow (fun a => decide (fsq2 a = fmul13 (fmul13 a a) (fmul13 a a))) 10
      7168 = true := by
  decide!

theorem sq2_13_check :
    allPow (fun a => decide (fsq2 a = fmul13 (fmul13 a a) (fmul13 a a))) 13 0 =
      true := by
  rw [allPow_split13, sq2_13_check_0, sq2_13_check_1, sq2_13_check_2,
    sq2_13_check_3, sq2_13_check_4, sq2_13_check_5, sq2_13_check_6,
    sq2_13_check_7]
  rfl

theorem sqmul_basis : ∀ j, j < 13 → ∀ k, k < 13 →
    gf13.gf_sqmul (2 ^ j) (2 ^ k) =
      gf13.gf_mul (gf13.gf_mul (2 ^ j) (2 ^ j)) (2 ^ k) := by decide

theorem sq2mul_basis : ∀ j, j < 13 → ∀ k, k < 13 →
    gf13.gf_sq2mul (2 ^ j) (2 ^ k) =
      gf13.gf_mul (gf13.gf_mul (gf13.gf_mul (2 ^ j) (2 ^ j))
        (gf13.gf_mul (2 ^ j) (2 ^ j))) (2 ^ k) := by decide

theorem gf13_sqmul_spec : ∀ a, a < 2 ^ 13 → ∀ m, m < 2 ^ 13 →
    gf13.gf_sqmul a m = gf13.gf_mul (gf13.gf_mul a a) m := by
  have h1 : ∀ j, j < 13 → ∀ m, m < 2 ^ 13 →
      gf13.gf_sqmul (2 ^ j) m = gf13.gf_mul (gf13.gf_mul (2 ^ j) (2 ^ j)) m := by
    intro j hj
    exact linext (f := fun m => gf13.gf_sqmul (2 ^ j) m)
      (g := fun m => gf13.gf_mul (gf13.gf_mul (2 ^ j) (2 ^ j)) m)
      (fun m₁ m₂ h₁ h₂ => gf13_sqmul_xor_right _ m₁ m₂ h₁ h₂)
      (fun m₁ m₂ _ _ => gf13_mul_xor_right _ m₁ m₂)
      (fun k hk => sqmul_basis j hj k hk)
  intro a ha m hm
  exact linext (n := 13) (f := fun a => gf13.gf_sqmul a m)
    (g := fun a => gf13.gf_mul (gf13.gf_mul a a) m)
    (fun a₁ a₂ h₁ h₂ => gf13_sqmul_xor_left a₁ a₂ m hm)
    (fun a₁ a₂ h₁ h₂ => by
      show gf13.gf_mul (gf13.gf_mul (a₁ ^^^ a₂) (a₁ ^^^ a₂)) m =
        gf13.gf_mul (gf13.gf_mul a₁ a₁) m ^^^ gf13.gf_mul (gf13.gf_mul a₂ a₂) m
      rw [gf13_sq_linear a₁ a₂ h₁ h₂, gf13_mul_xor_left])
    (fun j hj => h1 j hj m hm) a ha

theorem gf13_sq2mul_spec : ∀ a, a < 2 ^ 13 → ∀ m, m < 2 ^ 13 →
    gf13.gf_sq2mul a m =
      gf13.gf_mul (gf13.gf_mul (gf13.gf_mul a a) (gf13.gf_mul a a)) m := by
  have h1 : ∀ j, j < 13 → ∀ m, m < 2 ^ 13 →
      gf13.gf_sq2mul (2 ^ j) m =
        gf13.gf_mul (gf13.gf_mul (gf13.gf_mul (2 ^ j) (2 ^ j))
          (gf13.gf_mul (2 ^ j) (2 ^ j))) m := by
    intro j hj
    exact linext (f := fun m => gf13.gf_sq2mul (2 ^ j) m)
      (g := fun m => gf13.gf_mul (gf13.gf_mul (gf13.gf_mul (2 ^ j) (2 ^ j))
        (gf13.gf_mul (2 ^ j) (2 ^ j))) m)
      (fun m₁ m₂ h₁ h₂ => gf13_sq2mul_xor_right _ m₁ m₂ h₁ h₂)
      (fun m₁ m₂ _ _ => gf13_mul_xor_right _ m₁ m₂)
      (fun k hk => sq2mul_basis j hj k hk)
  intro a ha m hm
  exact linext (n := 13) (f := fun a => gf13.gf_sq2mul a m)
    (g := fun a => gf13.gf_mul (gf13.gf_mul (gf13.gf_mul a a) (gf13.gf_mul a a)) m)
    (fun a₁ a₂ h₁ h₂ => gf13_sq2mul_xor_left a₁ a₂ m hm)
    (fun a₁ a₂ h₁ h₂ => by
      have hs1 : gf13.gf_mul a₁ a₁ < 2 ^ 13 := gf13_mul_lt _ _
      have hs2 : gf13.gf_mul a₂ a₂ < 2 ^ 13 := gf13_mul_lt _ _
      show gf13.gf_mul (gf13.gf_mul (gf13.gf_mul (a₁ ^^^ a₂) (a₁ ^^^ a₂))
          (gf13.gf_mul (a₁ ^^^ a₂) (a₁ ^^^ a₂))) m =
        gf13.gf_mul (gf13.gf_mul (gf13.gf_mul a₁ a₁) (gf13.gf_mul a₁ a₁)) m ^^^
          gf13.gf_mul (gf13.gf_mul (gf13.gf_mul a₂ a₂) (gf13.gf_mul a₂ a₂)) m
      rw [gf13_sq_linear a₁ a₂ h₁ h₂, gf13_sq_linear _ _ hs1 hs2,
        gf13_mul_xor_left])
    (fun j hj => h1 j hj m hm) a ha

theorem gf13_sqmul_lt (a m : Nat) : gf13.gf_sqmul a m < 2 ^ 13 := by
  rw [gf13_sqmul_eq]
  have h : gf13.GFMASK = 2 ^ 13 - 1 := by decide
  rw [h]
  exact Nat.lt_of_le_of_lt Nat.and_le_right (by omega)

theorem gf13_sq2mul_lt (a m : Nat) : gf13.gf_sq2mul a m < 2 ^ 13 := by
  rw [gf13_sq2mul_eq]
  have h : gf13.GFMASK = 2 ^ 13 - 1 := by decide
  rw [h]
  exact Nat.lt_of_le_of_lt Nat.and_le_right (by omega)

/-- C7: the fused squaring fast paths equal their compositional definitions
via gf_mul, for all field elements bounded by the field mask: in the 12-bit
engine gf_sq a = gf_mul a a; in the 13-bit engine gf_sq2 a = (a^2)^2,
gf_sqmul a m = (a^2) * m and gf_sq2mul a m = ((a^2)^2) * m, all products
taken with gf_mul. -/
theorem c7_fused_squaring_equals_composition :
    (∀ a : Nat, a ≤ gf12.GFMASK → gf12.gf_sq a = gf12.gf_mul a a) ∧
    (∀ a : Nat, a ≤ gf13.GFMASK →
      gf13.gf_sq2 a = gf13.gf_mul (gf13.gf_mul a a) (gf13.gf_mul a a)) ∧
    (∀ a m : Nat, a ≤ gf13.GFMASK → m ≤ gf13.GFMASK →
      gf13.gf_sqmul a m = gf13.gf_mul (gf13.gf_mul a a) m) ∧
    (∀ a m : Nat, a ≤ gf13.GFMASK → m ≤ gf13.GFMASK →
      gf13.gf_sq2mul a m =
        gf13.gf_mul (gf13.gf_mul (gf13.gf_mul a a) (gf13.gf_mul a a)) m) := by
  refine ⟨?_, ?_, ?_, ?_⟩
  · intro a ha
    rw [fsq12_eq, fmul12_eq]
    exact ball_of_allPow sq12_check a ((gf12_mask_iff a).mp ha)
  · intro a ha
    rw [fsq2_eq]
    simp only [fmul13_eq]
    exact ball_of_allPow sq2_13_check a ((gf13_mask_iff a).mp ha)
  · intro a m ha hm
    exact gf13_sqmul_spec a ((gf13_mask_iff a).mp ha) m ((gf13_mask_iff m).mp hm)
  · intro a m ha hm
    exact gf13_sq2mul_spec a ((gf13_mask_iff a).mp ha) m ((gf13_mask_iff m).mp hm)

/-- Witness for C7 at a = 3, m = 5. -/
theorem c7_fused_squaring_equals_composition_witness :
    gf12.gf_sq 3 = gf12.gf_mul 3 3 ∧
    gf13.gf_sqmul 3 5 = gf13.gf_mul (gf13.gf_mul 3 3) 5 :=
  ⟨c7_fused_squaring_equals_composition.1 3 (by decide),
   c7_fused_squaring_equals_composition.2.2.1 3 5 (by decide) (by decide)⟩

/-- C1: in both field engines inversion and division are correct: the
inverse of 0 is 0, gf_mul a (gf_inv a) = 1 for every nonzero field element
a, and gf_frac den num agrees with gf_mul (gf_inv den) num — in particular
the addition-chain gf_frac of the 13-bit engine equals the compositional
definition. -/
theorem c1_inversion_and_division :
    (gf12.gf_inv 0 = 0 ∧ gf13.gf_inv 0 = 0) ∧
    (∀ a : Nat, a ≤ gf12.GFMASK → a ≠ 0 → gf12.gf_mul a (gf12.gf_inv a) = 1) ∧
    (∀ a : Nat, a ≤ gf13.GFMASK → a ≠ 0 → gf13.gf_mul a (gf13.gf_inv a) = 1) ∧
    (∀ den num : Nat, den ≤ gf12.GFMASK → num ≤ gf12.GFMASK →
      gf12.gf_frac den num = gf12.gf_mul (gf12.gf_inv den) num) ∧
    (∀ den num : Nat, den ≤ gf13.GFMASK → num ≤ gf13.GFMASK →
      gf13.gf_frac den num = gf13.gf_mul (gf13.gf_inv den) num) := by
  refine ⟨⟨by decide, by decide⟩, ?_, ?_, ?_, ?_⟩
  · intro a ha hne
    rw [fmul12_eq, finv12_eq]
    exact ball_of_allPow inv12_check a ((gf12_mask_iff a).mp ha) hne
  · intro a ha hne
    rw [show gf13.gf_inv a = gf13.gf_frac a 1 from rfl, ffrac_eq, fmul13_eq]
    exact ball_of_allPow inv13_check a ((gf13_mask_iff a).mp ha) hne
  · intro den num _ _
    rfl
  · intro den num hden hnum
    have hnum' : num < 2 ^ 13 := (gf13_mask_iff num).mp hnum
    have h1lt : (1 : Nat) < 2 ^ 13 := by omega
    have ho4 : gf13.gf_sq2mul
        (gf13.gf_sq2 (gf13.gf_sq2mul
          (gf13.gf_sq2 (gf13.gf_sq2mul (gf13.gf_sqmul den den)
            (gf13.gf_sqmul den den)))
          (gf13.gf_sq2mul (gf13.gf_sqmul den den) (gf13.gf_sqmul den den))))
        (gf13.gf_sq2mul (gf13.gf_sqmul den den) (gf13.gf_sqmul den den)) <
        2 ^ 13 := gf13_sq2mul_lt _ _
    rw [show gf13.gf_frac den num = gf13.gf_sqmul
        (gf13.gf_sq2mul
          (gf13.gf_sq2 (gf13.gf_sq2mul
            (gf13.gf_sq2 (gf13.gf_sq2mul (gf13.gf_sqmul den den)
              (gf13.gf_sqmul den den)))
            (gf13.gf_sq2mul (gf13.gf_sqmul den den) (gf13.gf_sqmul den den))))
          (gf13.gf_sq2mul (gf13.gf_sqmul den den) (gf13.gf_sqmul den den)))
        num from rfl]
    rw [show gf13.gf_inv den = gf13.gf_sqmul
        (gf13.gf_sq2mul
          (gf13.gf_sq2 (gf13.gf_sq2mul
            (gf13.gf_sq2 (gf13.gf_sq2mul (gf13.gf_sqmul den den)
              (gf13.gf_sqmul den den)))
            (gf13.gf_sq2mul (gf13.gf_sqmul den den) (gf13.gf_sqmul den den))))
          (gf13.gf_sq2mul (gf13.gf_sqmul den den) (gf13.gf_sqmul den den)))
        1 from rfl]
    rw [gf13_sqmul_spec _ ho4 num hnum', gf13_sqmul_spec _ ho4 1 h1lt,
      gf13_mul_one_all _ (gf13_mul_lt _ _)]

/-- Witness for C1 at concrete inputs a = 3, den = 5, num = 7. -/
theorem c1_inversion_and_division_witness :
    gf12.gf_mul 3 (gf12.gf_inv 3) = 1 ∧
    gf13.gf_frac 5 7 = gf13.gf_mul (gf13.gf_inv 5) 7 :=
  ⟨c1_inversion_and_division.2.1 3 (by decide) (by decide),
   c1_inversion_and_division.2.2.2.2 5 7 (by decide) (by decide)⟩

/-! ### Byte round trip, zero test, and output-width bounds -/

/-- C9: loading the 2-byte buffer written by store_gf recovers every field
element bounded by the mask, and load_gf's result never exceeds GFMASK for
any byte values whatsoever. -/
theorem c9_store_load_round_trip :
    (∀ a : Nat, a ≤ gf12.GFMASK →
      gf12.load_gf (gf12.store_gf a).1 (gf12.store_gf a).2 = a) ∧
    (∀ b0 b1 : Nat, gf12.load_gf b0 b1 ≤ gf12.GFMASK) := by
  constructor
  · intro a ha
    have ha' : a < 2 ^ 12 := (gf12_mask_iff a).mp ha
    show ((((a >>> 8) % 256) <<< 8) ||| (a &&& 0xFF)) &&& gf12.GFMASK = a
    have h1 : a &&& 0xFF = a % 256 := by
      rw [show (0xFF : Nat) = 2 ^ 8 - 1 from rfl, Nat.and_pow_two_sub_one_eq_mod]
    have h2 : ((a >>> 8) % 256) <<< 8 = 2 ^ 8 * ((a >>> 8) % 256) := by
      rw [Nat.shiftLeft_eq]
      ring
    have h3 : (2 ^ 8 * ((a >>> 8) % 256)) ||| (a % 256) =
        2 ^ 8 * ((a >>> 8) % 256) + a % 256 :=
      (Nat.mul_add_lt_is_or (by omega : a % 256 < 2 ^ 8) _).symm
    rw [h1, h2, h3, show gf12.GFMASK = 2 ^ 12 - 1 from rfl,
      Nat.and_pow_two_sub_one_eq_mod, Nat.shiftRight_eq_div_pow]
    have e8 : (2 : Nat) ^ 8 = 256 := by norm_num
    have e12 : (2 : Nat) ^ 12 = 4096 := by norm_num
    simp only [e8, e12] at ha' ⊢
    omega
  · intro b0 b1
    exact Nat.and_le_right

/-- Witness for C9 at a = 0xABC. -/
theorem c9_store_load_round_trip_witness :
    gf12.load_gf (gf12.store_gf 0xABC).1 (gf12.store_gf 0xABC).2 = 0xABC :=
  c9_store_load_round_trip.1 0xABC (by decide)

/-- C6 as stated is false for the 12-bit engine: gf_iszero 0 returns 8191,
which is not a field element of the 12-bit field (it exceeds GFMASK =
4095), so it is not "a field element with every bit of the field width
set". -/
theorem c6_iszero_sentinel_counterexample :
    gf12.gf_iszero 0 = 8191 ∧ gf12.GFMASK = 4095 ∧
      ¬ gf12.gf_iszero 0 ≤ gf12.GFMASK := by decide

/-- C6 amended: in both engines gf_iszero 0 returns 8191 — in the 13-bit
engine this is exactly the all-ones field element GFMASK, while in the
12-bit engine it has every one of the 12 field-width bits set plus bit 12,
exceeding the mask — and gf_iszero a = 0 for every nonzero 16-bit a. -/
theorem c6_iszero_sentinels :
    (gf12.gf_iszero 0 = 8191 ∧ gf13.gf_iszero 0 = 8191 ∧
      gf13.gf_iszero 0 = gf13.GFMASK ∧
      (∀ j, j < 12 → (gf12.gf_iszero 0).testBit j = true)) ∧
    (∀ a : Nat, a < 2 ^ 16 → a ≠ 0 →
      gf12.gf_iszero a = 0 ∧ gf13.gf_iszero a = 0) := by
  constructor
  · exact ⟨by decide, by decide, by decide, by decide⟩
  · intro a ha hne
    have key : ((a + (2 ^ 32 - 1)) % 2 ^ 32) >>> 19 = 0 := by
      rw [Nat.shiftRight_eq_div_pow]
      have e32 : (2 : Nat) ^ 32 = 4294967296 := by norm_num
      have e19 : (2 : Nat) ^ 19 = 524288 := by norm_num
      have e16 : (2 : Nat) ^ 16 = 65536 := by norm_num
      rw [e32, e19]
      rw [e16] at ha
      omega
    exact ⟨key, key⟩

/-- Witness for C6 (amended) at a = 65535. -/
theorem c6_iszero_sentinels_witness :
    gf12.gf_iszero 65535 = 0 ∧ gf13.gf_iszero 65535 = 0 :=
  c6_iszero_sentinels.2 65535 (by decide) (by decide)

/-! Bounds for the amended masking-invariant claim. -/

theorem and_gfmask12_lt (x : Nat) : x &&& gf12.GFMASK < 2 ^ 12 := by
  have h : gf12.GFMASK = 2 ^ 12 - 1 := by decide
  rw [h]
  exact Nat.lt_of_le_of_lt Nat.and_le_right (by omega)

theorem gf12_sq_lt (a : Nat) : gf12.gf_sq a < 2 ^ 12 := by
  simp only [gf12.gf_sq]
  exact and_gfmask12_lt _

theorem gf12_inv_lt (a : Nat) : gf12.gf_inv a < 2 ^ 12 := by
  simp only [gf12.gf_inv]
  exact gf12_sq_lt _

theorem and_shiftLeft_lt (x c k n : Nat) (h : (c + 1) * 2 ^ k ≤ 2 ^ n) :
    (x &&& c) <<< k < 2 ^ n := by
  rw [Nat.shiftLeft_eq]
  have h1 : x &&& c ≤ c := Nat.and_le_right
  have h2 : (x &&& c) * 2 ^ k ≤ c * 2 ^ k :=
    Nat.mul_le_mul_right _ h1
  have h3 : (0 : Nat) < 2 ^ k := Nat.pos_pow_of_pos k (by omega)
  have h4 : c * 2 ^ k < (c + 1) * 2 ^ k :=
    (Nat.mul_lt_mul_right h3).mpr (by omega)
  omega

theorem and_shiftRight_lt (x c k n : Nat) (h : c < 2 ^ n) :
    (x &&& c) >>> k < 2 ^ n := by
  rw [Nat.shiftRight_eq_div_pow]
  have h1 : x &&& c ≤ c := Nat.and_le_right
  have h2 := Nat.div_le_self (x &&& c) (2 ^ k)
  omega

theorem bitrev_lt (a : Nat) : gf12.bitrev a < 2 ^ 12 := by
  have hb : ∀ y : Nat,
      (((y &&& 0x5555) <<< 1) ||| ((y &&& 0xAAAA) >>> 1)) >>> 4 < 2 ^ 12 := by
    intro y
    have h16 : ((y &&& 0x5555) <<< 1) ||| ((y &&& 0xAAAA) >>> 1) < 2 ^ 16 :=
      Nat.or_lt_two_pow (and_shiftLeft_lt y 0x5555 1 16 (by norm_num))
        (and_shiftRight_lt y 0xAAAA 1 16 (by norm_num))
    rw [Nat.shiftRight_eq_div_pow]
    have e16 : (2 : Nat) ^ 16 = 65536 := by norm_num
    have e12 : (2 : Nat) ^ 12 = 4096 := by norm_num
    have e4 : (2 : Nat) ^ 4 = 16 := by norm_num
    rw [e12, e4]
    rw [e16] at h16
    omega
  exact hb _

/-- C5 as stated is false: gf_add applied to a 16-bit value with a bit at
or above position 12 is not masked, and gf_iszero 0 = 8191 has bit 12 set,
both violating "no bits set at position GFBITS or above". -/
theorem c5_masking_counterexample :
    gf12.gf_add 4096 0 = 4096 ∧ ¬ gf12.gf_add 4096 0 < 2 ^ 12 ∧
      gf12.gf_iszero 0 = 8191 ∧ ¬ gf12.gf_iszero 0 < 2 ^ 12 := by decide

/-- C5 amended: gf_mul, gf_sq, gf_frac, gf_inv and bitrev of the 12-bit
engine produce values below 2^GFBITS for all u16 (indeed all Nat) inputs;
gf_add produces a value below 2^GFBITS when both operands are; and
gf_iszero produces only the sentinels 0 and 8191 on u16 inputs — the
nonzero sentinel exceeds the 12-bit width, as gf_add does on unmasked
inputs, which is where the original claim fails. -/
theorem c5_masking_invariant :
    (∀ a b : Nat, gf12.gf_mul a b < 2 ^ 12) ∧
    (∀ a : Nat, gf12.gf_sq a < 2 ^ 12) ∧
    (∀ den num : Nat, gf12.gf_frac den num < 2 ^ 12) ∧
    (∀ a : Nat, gf12.gf_inv a < 2 ^ 12) ∧
    (∀ a : Nat, gf12.bitrev a < 2 ^ 12) ∧
    (∀ a b : Nat, a < 2 ^ 12 → b < 2 ^ 12 → gf12.gf_add a b < 2 ^ 12) ∧
    (∀ a : Nat, a < 2 ^ 16 →
      gf12.gf_iszero a = 0 ∨ gf12.gf_iszero a = 8191) := by
  refine ⟨gf12_mul_lt, gf12_sq_lt, ?_, gf12_inv_lt, bitrev_lt, ?_, ?_⟩
  · intro den num
    exact gf12_mul_lt _ _
  · intro a b ha hb
    exact Nat.xor_lt_two_pow ha hb
  · intro a ha
    rcases Nat.eq_zero_or_pos a with h0 | hpos
    · subst h0
      exact Or.inr (by decide)
    · left
      show ((a + (2 ^ 32 - 1)) % 2 ^ 32) >>> 19 = 0
      rw [Nat.shiftRight_eq_div_pow]
      have e32 : (2 : Nat) ^ 32 = 4294967296 := by norm_num
      have e19 : (2 : Nat) ^ 19 = 524288 := by norm_num
      have e16 : (2 : Nat) ^ 16 = 65536 := by norm_num
      rw [e32, e19]
      rw [e16] at ha
      omega

/-- Witness for C5 (amended) at concrete inputs. -/
theorem c5_masking_invariant_witness :
    gf12.gf_add 100 200 < 2 ^ 12 ∧
    (gf12.gf_iszero 12345 = 0 ∨ gf12.gf_iszero 12345 = 8191) :=
  ⟨c5_masking_invariant.2.2.2.2.2.1 100 200 (by decide) (by decide),
   c5_masking_invariant.2.2.2.2.2.2 12345 (by decide)⟩

/-! ### Associativity of the 12-bit multiplier (trilinearity plus basis) -/

theorem gf12_assoc_basis : ∀ i, i < 12 → ∀ j, j < 12 → ∀ k, k < 12 →
    gf12.gf_mul (gf12.gf_mul (2 ^ i) (2 ^ j)) (2 ^ k) =
      gf12.gf_mul (2 ^ i) (gf12.gf_mul (2 ^ j) (2 ^ k)) := by decide!

theorem gf12_mul_assoc_all : ∀ x y z : Nat, x < 2 ^ 12 → y < 2 ^ 12 →
    z < 2 ^ 12 →
    gf12.gf_mul (gf12.gf_mul x y) z = gf12.gf_mul x (gf12.gf_mul y z) := by
  have h1 : ∀ i, i < 12 → ∀ j, j < 12 → ∀ z, z < 2 ^ 12 →
      gf12.gf_mul (gf12.gf_mul (2 ^ i) (2 ^ j)) z =
        gf12.gf_mul (2 ^ i) (gf12.gf_mul (2 ^ j) z) := by
    intro i hi j hj
    exact linext (f := fun z => gf12.gf_mul (gf12.gf_mul (2 ^ i) (2 ^ j)) z)
      (g := fun z => gf12.gf_mul (2 ^ i) (gf12.gf_mul (2 ^ j) z))
      (fun m₁ m₂ _ _ => gf12_mul_xor_right _ m₁ m₂)
      (fun m₁ m₂ _ _ => by
        show gf12.gf_mul (2 ^ i) (gf12.gf_mul (2 ^ j) (m₁ ^^^ m₂)) = _
        rw [gf12_mul_xor_right, gf12_mul_xor_right])
      (fun k hk => gf12_assoc_basis i hi j hj k hk)
  have h2 : ∀ i, i < 12 → ∀ z, z < 2 ^ 12 → ∀ y, y < 2 ^ 12 →
      gf12.gf_mul (gf12.gf_mul (2 ^ i) y) z =
        gf12.gf_mul (2 ^ i) (gf12.gf_mul y z) := by
    intro i hi z hz
    exact linext (f := fun y => gf12.gf_mul (gf12.gf_mul (2 ^ i) y) z)
      (g := fun y => gf12.gf_mul (2 ^ i) (gf12.gf_mul y z))
      (fun m₁ m₂ _ _ => by
        show gf12.gf_mul (gf12.gf_mul (2 ^ i) (m₁ ^^^ m₂)) z = _
        rw [gf12_mul_xor_right, gf12_mul_xor_left])
      (fun m₁ m₂ _ _ => by
        show gf12.gf_mul (2 ^ i) (gf12.gf_mul (m₁ ^^^ m₂) z) = _
        rw [gf12_mul_xor_left, gf12_mul_xor_right])
      (fun j hj => h1 i hi j hj z hz)
  intro x y z hx hy hz
  exact linext (n := 12) (f := fun x => gf12.gf_mul (gf12.gf_mul x y) z)
    (g := fun x => gf12.gf_mul x (gf12.gf_mul y z))
    (fun m₁ m₂ _ _ => by
      show gf12.gf_mul (gf12.gf_mul (m₁ ^^^ m₂) y) z = _
      rw [gf12_mul_xor_left, gf12_mul_xor_left])
    (fun m₁ m₂ _ _ => gf12_mul_xor_left m₁ m₂ _)
    (fun i hi => h2 i hi z hz y hy) x hx

/-! ### The polynomial evaluator and root finder (src/mceliece348864/root.rs)

SYS_T and SYS_N are kept as parameters t and sysN; the 348864 variant fixes
them elsewhere in the crate. -/

namespace mceliece348864

/-- Horner evaluation: r starts at f[SYS_T] and the loop runs i from
SYS_T - 1 down to 0, computing r := gf_mul r a; r := gf_add r f[i]. -/
def eval (t : Nat) (f : Nat → Nat) (a : Nat) : Nat :=
  ((List.range t).reverse).foldl
    (fun r i => gf12.gf_add (gf12.gf_mul r a) (f i)) (f t)

/-- root overwrites out[i] with eval f l[i] for every i < SYS_N. -/
def root (sysN t : Nat) (out : List Nat) (f l : Nat → Nat) : List Nat :=
  (List.range sysN).foldl (fun o i => o.set i (eval t f (l i))) out

end mceliece348864

/-- Repeated gf_mul power, the reference form used to state that Horner
evaluation computes the direct polynomial summation. -/
def powGf (a : Nat) : Nat → Nat
  | 0 => 1
  | n + 1 => gf12.gf_mul (powGf a n) a

/-- Direct polynomial summation of f[i] * a^i for i = 0..t, computed with
gf_mul and gf_add; the claim compares eval against this definition. -/
def evalDirect (t : Nat) (f : Nat → Nat) (a : Nat) : Nat :=
  (List.range (t + 1)).foldr
    (fun i s => gf12.gf_add (gf12.gf_mul (f i) (powGf a i)) s) 0

theorem eval_succ (t : Nat) (f : Nat → Nat) (a : Nat) :
    mceliece348864.eval (t + 1) f a =
      gf12.gf_add (gf12.gf_mul (mceliece348864.eval t (fun i => f (i + 1)) a) a)
        (f 0) := by
  unfold mceliece348864.eval
  rw [List.range_succ_eq_map, List.reverse_cons, List.foldl_append,
    ← List.map_reverse, List.foldl_map]
  simp only [List.foldl_cons, List.foldl_nil, Nat.succ_eq_add_one]

theorem powGf_lt (a n : Nat) (ha : a < 2 ^ 12) : powGf a n < 2 ^ 12 := by
  cases n with
  | zero =>
    show (1 : Nat) < 2 ^ 12
    omega
  | succ n => exact gf12_mul_lt _ _

theorem evalDirect_succ (t : Nat) (f : Nat → Nat) (a : Nat)
    (hf : ∀ i, i ≤ t + 1 → f i < 2 ^ 12) (ha : a < 2 ^ 12) :
    evalDirect (t + 1) f a =
      gf12.gf_add (gf12.gf_mul (evalDirect t (fun i => f (i + 1)) a) a)
        (f 0) := by
  unfold evalDirect
  rw [List.range_succ_eq_map, List.foldr_cons, List.foldr_map]
  have hmul : ∀ L : List Nat, (∀ i ∈ L, i ≤ t) →
      gf12.gf_mul
        (L.foldr (fun i s =>
          gf12.gf_add (gf12.gf_mul (f (i + 1)) (powGf a i)) s) 0) a =
      L.foldr (fun i s =>
        gf12.gf_add (gf12.gf_mul (f (i + 1)) (powGf a (i + 1))) s) 0 := by
    intro L
    induction L with
    | nil => intro _; exact gf12_zero_mul_all a
    | cons x L ih =>
      intro hmem
      simp only [List.foldr_cons, gf12.gf_add] at ih ⊢
      rw [gf12_mul_xor_left]
      rw [ih (fun i hi => hmem i (List.mem_cons_of_mem x hi))]
      rw [gf12_mul_assoc_all (f (x + 1)) (powGf a x) a
        (hf (x + 1) (by have := hmem x (List.mem_cons_self x L); omega))
        (powGf_lt a x ha) ha]
      rw [show gf12.gf_mul (powGf a x) a = powGf a (x + 1) from rfl]
  rw [hmul (List.range (t + 1)) (fun i hi => by
    have := List.mem_range.mp hi
    omega)]
  show gf12.gf_add (gf12.gf_mul (f 0) (powGf a 0)) _ = _
  rw [show powGf a 0 = 1 from rfl, gf12_mul_one_all (f 0) (hf 0 (by omega))]
  show f 0 ^^^ _ = _ ^^^ f 0
  exact Nat.xor_comm _ _

theorem eval_eq_direct : ∀ (t : Nat) (f : Nat → Nat) (a : Nat),
    (∀ i, i ≤ t → f i < 2 ^ 12) → a < 2 ^ 12 →
    mceliece348864.eval t f a = evalDirect t f a := by
  intro t
  induction t with
  | zero =>
    intro f a hf ha
    show f 0 = evalDirect 0 f a
    unfold evalDirect
    show f 0 = gf12.gf_add (gf12.gf_mul (f 0) (powGf a 0)) 0
    rw [show powGf a 0 = 1 from rfl, gf12_mul_one_all (f 0) (hf 0 (by omega))]
    simp only [gf12.gf_add]
    rw [Nat.xor_zero]
  | succ t ih =>
    intro f a hf ha
    rw [eval_succ, evalDirect_succ t f a hf ha,
      ih (fun i => f (i + 1)) a (fun i hi => hf (i + 1) (by omega)) ha]

/-! ### Output-buffer overwrite lemma, shared by root, support_gen, GF_mul -/

theorem foldl_set_overwrite (v : Nat → Nat) : ∀ (n : Nat) (out : List Nat),
    n ≤ out.length →
    (List.range n).foldl (fun o i => o.set i (v i)) out =
      (List.range n).map v ++ out.drop n := by
  intro n
  induction n with
  | zero =>
    intro out _
    simp
  | succ n ih =>
    intro out h
    rw [List.range_succ, List.foldl_append, ih out (by omega)]
    simp only [List.foldl_cons, List.foldl_nil]
    have hlen : (List.map v (List.range n)).length = n := by simp
    rw [List.set_append_right _ _ (by omega)]
    simp only [hlen, Nat.sub_self]
    rw [List.drop_eq_getElem_cons (show n < out.length from by omega)]
    simp only [List.set_cons_zero]
    rw [List.map_append, List.append_assoc]
    rfl

theorem map_range_getD (g : Nat → Nat) (n i : Nat) (h : i < n) :
    ((List.range n).map g).getD i 0 = g i := by
  simp [List.getD_eq_getElem?_getD, List.getElem?_map, List.getElem?_range, h]

theorem root_spec (sysN t : Nat) (out : List Nat) (f l : Nat → Nat)
    (h : out.length = sysN) :
    mceliece348864.root sysN t out f l =
      (List.range sysN).map (fun i => mceliece348864.eval t f (l i)) := by
  unfold mceliece348864.root
  rw [foldl_set_overwrite _ sysN out (by omega), ← h, List.drop_length,
    List.append_nil]

theorem eval_at_zero : ∀ (t : Nat) (f : Nat → Nat),
    mceliece348864.eval t f 0 = f 0 := by
  intro t
  induction t with
  | zero => intro f; rfl
  | succ t ih =>
    intro f
    rw [eval_succ, gf12_mul_zero_all]
    show (0 : Nat) ^^^ f 0 = f 0
    exact Nat.zero_xor _

theorem eval_zero_poly : ∀ (t a : Nat),
    mceliece348864.eval t (fun _ => 0) a = 0 := by
  intro t
  induction t with
  | zero => intro a; rfl
  | succ t ih =>
    intro a
    rw [eval_succ]
    show gf12.gf_add (gf12.gf_mul (mceliece348864.eval t (fun _ => 0) a) a) 0 = 0
    rw [ih, gf12_zero_mul_all]
    rfl

/-- C3: Horner evaluation agrees with the direct polynomial summation of
f[i] * a^i computed with gf_mul and gf_add, for coefficient arrays and
points bounded by the field mask; eval at 0 returns f[0]; eval of the
all-zero polynomial is 0; and root overwrites out[i] with eval f l[i] for
every index below SYS_N. -/
theorem c3_eval_and_root :
    (∀ (t : Nat) (f : Nat → Nat) (a : Nat),
      (∀ i, i ≤ t → f i ≤ gf12.GFMASK) → a ≤ gf12.GFMASK →
      mceliece348864.eval t f a = evalDirect t f a) ∧
    (∀ (t : Nat) (f : Nat → Nat), mceliece348864.eval t f 0 = f 0) ∧
    (∀ (t a : Nat), mceliece348864.eval t (fun _ => 0) a = 0) ∧
    (∀ (sysN t : Nat) (out : List Nat) (f l : Nat → Nat),
      out.length = sysN → ∀ i, i < sysN →
      (mceliece348864.root sysN t out f l).getD i 0 =
        mceliece348864.eval t f (l i)) := by
  refine ⟨?_, eval_at_zero, eval_zero_poly, ?_⟩
  · intro t f a hf ha
    exact eval_eq_direct t f a
      (fun i hi => (gf12_mask_iff (f i)).mp (hf i hi))
      ((gf12_mask_iff a).mp ha)
  · intro sysN t out f l h i hi
    rw [root_spec sysN t out f l h, map_range_getD _ sysN i hi]

/-- Witness for C3 with f = [1, 2, 3], a = 5, and a length-2 support. -/
theorem c3_eval_and_root_witness :
    mceliece348864.eval 2 (fun i => [1, 2, 3].getD i 0) 5 =
      evalDirect 2 (fun i => [1, 2, 3].getD i 0) 5 ∧
    (mceliece348864.root 2 2 [9, 9] (fun i => [1, 2, 3].getD i 0)
      (fun i => [5, 6].getD i 0)).getD 0 0 =
      mceliece348864.eval 2 (fun i => [1, 2, 3].getD i 0) 5 :=
  ⟨c3_eval_and_root.1 2 (fun i => [1, 2, 3].getD i 0) 5 (by decide) (by decide),
   c3_eval_and_root.2.2.2 2 2 [9, 9] (fun i => [1, 2, 3].getD i 0)
     (fun i => [5, 6].getD i 0) (by decide) 0 (by decide)⟩

/-! ### The support generator (src/common/internals348864/benes.rs)

apply_benes_gf12 lives in a module that only the claim's surrounding code
calls; the claim asserts nothing about its internals, so it is taken as an
arbitrary function parameter (plane bytes, control bytes, reverse flag 0).
Byte arrays are modelled as functions from index to byte value. -/

namespace benes348864

/-- The inner j-loop of the table-building phase for one index i:
l[j][i / 8] |= ((bitrev i >> j) & 1) << (i % 8). -/
def planesStep (i : Nat) (l : Nat → Nat → Nat) : Nat → Nat → Nat :=
  (List.range gf12.GFBITS).foldl
    (fun l2 j => fun j' b =>
      if j' = j ∧ b = i / 8 then
        l2 j' b ||| (((gf12.bitrev i >>> j) &&& 1) <<< (i % 8))
      else l2 j' b) l

/-- The initial bit-sliced table: the i-loop over 0..2^GFBITS. -/
def planesInit : Nat → Nat → Nat :=
  (List.range (1 <<< gf12.GFBITS)).foldl (fun l i => planesStep i l)
    (fun _ _ => 0)

/-- The extraction loop for one support element: s starts at 0 and for j
from GFBITS-1 down to 0 does s <<= 1; s |= (l[j][i / 8] >> (i % 8)) & 1. -/
def extractElem (l : Nat → Nat → Nat) (i : Nat) : Nat :=
  ((List.range gf12.GFBITS).reverse).foldl
    (fun s j => (s <<< 1) ||| ((l j (i / 8) >>> (i % 8)) &&& 1)) 0

/-- support_gen: build the table, apply the Benes network with the same
control bits to every plane, then extract the SYS_N support elements into
s. -/
def support_gen (applyBenes : (Nat → Nat) → (Nat → Nat) → Nat → (Nat → Nat))
    (sysN : Nat) (s : List Nat) (c : Nat → Nat) : List Nat :=
  let l := planesInit
  let l2 := fun j => applyBenes (l j) c 0
  (List.range sysN).foldl (fun s i => s.set i (extractElem l2 i)) s

end benes348864

theorem planesStep_apply (i : Nat) (l : Nat → Nat → Nat) (j b : Nat) :
    benes348864.planesStep i l j b =
      if j < gf12.GFBITS ∧ b = i / 8 then
        l j b ||| (((gf12.bitrev i >>> j) &&& 1) <<< (i % 8))
      else l j b := by
  have aux : ∀ (n : Nat) (l : Nat → Nat → Nat) (j b : Nat),
      ((List.range n).foldl
        (fun l2 jj => fun j' b' =>
          if j' = jj ∧ b' = i / 8 then
            l2 j' b' ||| (((gf12.bitrev i >>> jj) &&& 1) <<< (i % 8))
          else l2 j' b') l) j b =
      if j < n ∧ b = i / 8 then
        l j b ||| (((gf12.bitrev i >>> j) &&& 1) <<< (i % 8))
      else l j b := by
    intro n
    induction n with
    | zero =>
      intro l j b
      simp
    | succ n ih =>
      intro l j b
      rw [List.range_succ, List.foldl_append]
      simp only [List.foldl_cons, List.foldl_nil]
      rw [ih]
      by_cases hb : b = i / 8
      · by_cases hj : j = n
        · subst hj
          rw [if_pos ⟨rfl, hb⟩, if_neg (by rintro ⟨h, _⟩; omega),
            if_pos ⟨Nat.lt_succ_self j, hb⟩]
        · rw [if_neg (by rintro ⟨h, _⟩; exact hj h)]
          by_cases hlt : j < n
          · rw [if_pos ⟨hlt, hb⟩, if_pos ⟨by omega, hb⟩]
          · rw [if_neg (by rintro ⟨h, _⟩; omega),
              if_neg (by rintro ⟨h, _⟩; omega)]
      · rw [if_neg (by rintro ⟨_, h⟩; exact hb h),
          if_neg (by rintro ⟨_, h⟩; exact hb h),
          if_neg (by rintro ⟨_, h⟩; exact hb h)]
  exact aux gf12.GFBITS l j b

theorem single_shifted_bit (x p k : Nat) :
    (((x &&& 1) <<< p).testBit k = true) ↔ (k = p ∧ x.testBit 0 = true) := by
  rcases Nat.lt_or_ge k p with h | h
  · exact iff_of_false
      (by rw [Nat.testBit_shiftLeft, decide_eq_false (by omega : ¬ p ≤ k)]; simp)
      (by rintro ⟨hk, _⟩; omega)
  · by_cases hk : k = p
    · subst hk
      rw [Nat.testBit_shiftLeft, decide_eq_true (Nat.le_refl k), Nat.sub_self,
        Nat.testBit_and, show (1 : Nat) = 2 ^ 0 from rfl, Nat.testBit_two_pow]
      simp
    · exact iff_of_false
        (by
          rw [Nat.testBit_shiftLeft, decide_eq_true h, Nat.testBit_and,
            show (1 : Nat) = 2 ^ 0 from rfl, Nat.testBit_two_pow,
            decide_eq_false (by omega : ¬ (0 = k - p))]
          simp)
        (by rintro ⟨hk2, _⟩; exact hk hk2)

theorem planesAux_spec : ∀ (m j b k : Nat), j < gf12.GFBITS →
    ((((List.range m).foldl (fun l i => benes348864.planesStep i l)
        (fun _ _ => 0)) j b).testBit k = true ↔
      (k < 8 ∧ 8 * b + k < m ∧ (gf12.bitrev (8 * b + k)).testBit j = true)) := by
  intro m
  induction m with
  | zero =>
    intro j b k hj
    simp
  | succ m ih =>
    intro j b k hj
    rw [List.range_succ, List.foldl_append]
    simp only [List.foldl_cons, List.foldl_nil]
    rw [planesStep_apply]
    by_cases hb : b = m / 8
    · rw [if_pos ⟨hj, hb⟩, Nat.testBit_or, Bool.or_eq_true]
      constructor
      · rintro (h | h)
        · have h2 := (ih j b k hj).mp h
          exact ⟨h2.1, by omega, h2.2.2⟩
        · have h2 := (single_shifted_bit _ _ _).mp h
          have hbit := h2.2
          rw [Nat.testBit_shiftRight] at hbit
          have harg : 8 * b + k = m := by omega
          refine ⟨by omega, by omega, ?_⟩
          rw [harg]
          simpa using hbit
      · rintro ⟨hk8, hlt, hbit⟩
        by_cases hm : 8 * b + k = m
        · right
          rw [single_shifted_bit]
          refine ⟨by omega, ?_⟩
          rw [Nat.testBit_shiftRight, Nat.add_zero, ← hm]
          exact hbit
        · left
          exact (ih j b k hj).mpr ⟨hk8, by omega, hbit⟩
    · rw [if_neg (by rintro ⟨_, h⟩; exact hb h), ih j b k hj]
      constructor
      · rintro ⟨hk8, hlt, hbit⟩
        exact ⟨hk8, by omega, hbit⟩
      · rintro ⟨hk8, hlt, hbit⟩
        refine ⟨hk8, ?_, hbit⟩
        rcases Nat.lt_or_ge (8 * b + k) m with h | h
        · exact h
        · exfalso
          apply hb
          omega

theorem planesInit_testBit (j i : Nat) (hj : j < gf12.GFBITS)
    (hi : i < 1 <<< gf12.GFBITS) :
    ((benes348864.planesInit j (i / 8)).testBit (i % 8) = true) ↔
      ((gf12.bitrev i).testBit j = true) := by
  have h := planesAux_spec (1 <<< gf12.GFBITS) j (i / 8) (i % 8) hj
  have harg : 8 * (i / 8) + i % 8 = i := by omega
  rw [harg] at h
  constructor
  · intro hbit
    exact (h.mp hbit).2.2
  · intro hbit
    exact h.mpr ⟨Nat.mod_lt _ (by omega), hi, hbit⟩

theorem shift_or_fold_testBit (g : Nat → Nat) (hg : ∀ j, g j ≤ 1) :
    ∀ (L : List Nat) (s k : Nat),
      ((L.foldl (fun s j => (s <<< 1) ||| g j) s).testBit k) =
        (if k < L.length then decide (g (L.getD (L.length - 1 - k) 0) = 1)
         else s.testBit (k - L.length)) := by
  intro L
  induction L with
  | nil =>
    intro s k
    simp
  | cons a L ih =>
    intro s k
    rw [List.foldl_cons, ih]
    by_cases hk : k < L.length
    · have hidx : (a :: L).length - 1 - k = (L.length - 1 - k) + 1 := by
        simp only [List.length_cons]
        omega
      rw [if_pos hk, if_pos (by simp only [List.length_cons]; omega), hidx,
        List.getD_cons_succ]
    · by_cases hk2 : k = L.length
      · subst hk2
        rw [if_neg (Nat.lt_irrefl _),
          if_pos (by simp only [List.length_cons]; omega), Nat.sub_self]
        have hidx : (a :: L).length - 1 - L.length = 0 := by
          simp only [List.length_cons]
          omega
        rw [hidx, List.getD_cons_zero, Nat.testBit_or, Nat.testBit_shiftLeft,
          decide_eq_false (by omega : ¬ (1 : Nat) ≤ 0)]
        simp only [Bool.false_and, Bool.false_or]
        rcases Nat.le_one_iff_eq_zero_or_eq_one.mp (hg a) with h | h <;>
          rw [h] <;> decide
      · rw [if_neg hk, if_neg (by simp only [List.length_cons]; omega)]
        simp only [List.length_cons]
        have hd : k - L.length = (k - (L.length + 1)) + 1 := by omega
        rw [hd, Nat.testBit_or, Nat.testBit_shiftLeft,
          decide_eq_true (by omega : 1 ≤ (k - (L.length + 1)) + 1)]
        simp only [Bool.true_and, Nat.add_sub_cancel]
        have hz : (g a).testBit (k - (L.length + 1) + 1) = false := by
          rcases Nat.le_one_iff_eq_zero_or_eq_one.mp (hg a) with h | h
          · rw [h, Nat.zero_testBit]
          · rw [h, show (1 : Nat) = 2 ^ 0 from rfl, Nat.testBit_two_pow]
            simp
        rw [hz, Bool.or_false]

theorem range_reverse_getD (n d : Nat) (h : d < n) :
    ((List.range n).reverse).getD d 0 = n - 1 - d := by
  have hlen : ((List.range n).reverse).length = n := by simp
  rw [List.getD_eq_getElem?_getD,
    List.getElem?_eq_getElem (by rw [hlen]; exact h)]
  simp [List.getElem_reverse, List.getElem_range]

theorem extractElem_testBit (l : Nat → Nat → Nat) (i k : Nat)
    (hk : k < gf12.GFBITS) :
    (benes348864.extractElem l i).testBit k =
      decide (((l k (i / 8)) >>> (i % 8)) &&& 1 = 1) := by
  have h := shift_or_fold_testBit (fun j => (l j (i / 8) >>> (i % 8)) &&& 1)
    (fun j => Nat.and_le_right) ((List.range gf12.GFBITS).reverse) 0 k
  show (((List.range gf12.GFBITS).reverse).foldl
      (fun s j => (s <<< 1) ||| ((l j (i / 8) >>> (i % 8)) &&& 1)) 0).testBit k
    = _
  rw [h]
  simp only [List.length_reverse, List.length_range]
  rw [if_pos hk, range_reverse_getD _ _ (by omega),
    show gf12.GFBITS - 1 - (gf12.GFBITS - 1 - k) = k from by omega]

theorem extractElem_lt (l : Nat → Nat → Nat) (i : Nat) :
    benes348864.extractElem l i < 2 ^ gf12.GFBITS := by
  apply Nat.lt_pow_two_of_testBit
  intro k hk
  have h := shift_or_fold_testBit (fun j => (l j (i / 8) >>> (i % 8)) &&& 1)
    (fun j => Nat.and_le_right) ((List.range gf12.GFBITS).reverse) 0 k
  show (((List.range gf12.GFBITS).reverse).foldl
      (fun s j => (s <<< 1) ||| ((l j (i / 8) >>> (i % 8)) &&& 1)) 0).testBit k
    = false
  rw [h]
  simp only [List.length_reverse, List.length_range]
  rw [if_neg (by omega)]
  exact Nat.zero_testBit _

theorem support_gen_map
    (applyBenes : (Nat → Nat) → (Nat → Nat) → Nat → (Nat → Nat))
    (sysN : Nat) (s : List Nat) (c : Nat → Nat) (h : s.length = sysN) :
    benes348864.support_gen applyBenes sysN s c =
      (List.range sysN).map (fun i =>
        benes348864.extractElem
          (fun j => applyBenes (benes348864.planesInit j) c 0) i) := by
  show (List.range sysN).foldl
      (fun s i => s.set i (benes348864.extractElem
        (fun j => applyBenes (benes348864.planesInit j) c 0) i)) s = _
  rw [foldl_set_overwrite _ sysN s (by omega), ← h, List.drop_length,
    List.append_nil]

/-- C4: support_gen builds GFBITS bit-planes whose bit at position i of
plane j equals bit j of bitrev(i) for every i below 2^GFBITS; it applies
the Benes network with the same control-bit array c to every one of the
GFBITS planes (the permuted planes are applyBenes (planesInit j) c 0 for
each plane index j); and it sets s[i] to the integer whose bit j is the
bit at position i of permuted plane j, so every produced element is
strictly below 2^GFBITS. -/
theorem c4_support_gen
    (applyBenes : (Nat → Nat) → (Nat → Nat) → Nat → (Nat → Nat))
    (c : Nat → Nat) (sysN : Nat) (s : List Nat) (h : s.length = sysN) :
    (∀ j i, j < gf12.GFBITS → i < 1 <<< gf12.GFBITS →
      (((benes348864.planesInit j (i / 8)).testBit (i % 8) = true) ↔
        ((gf12.bitrev i).testBit j = true))) ∧
    (benes348864.support_gen applyBenes sysN s c =
      (List.range sysN).map (fun i =>
        benes348864.extractElem
          (fun j => applyBenes (benes348864.planesInit j) c 0) i)) ∧
    (∀ i, i < sysN →
      ((benes348864.support_gen applyBenes sysN s c).getD i 0
          < 2 ^ gf12.GFBITS ∧
        ∀ j, j < gf12.GFBITS →
          (((benes348864.support_gen applyBenes sysN s c).getD i 0).testBit j
            = decide (((applyBenes (benes348864.planesInit j) c 0 (i / 8))
                >>> (i % 8)) &&& 1 = 1)))) := by
  refine ⟨fun j i hj hi => planesInit_testBit j i hj hi,
    support_gen_map applyBenes sysN s c h, ?_⟩
  intro i hi
  rw [support_gen_map applyBenes sysN s c h, map_range_getD _ sysN i hi]
  exact ⟨extractElem_lt _ i, fun j hj => extractElem_testBit _ i j hj⟩

theorem c4_support_gen_witness :
    ([7, 9] : List Nat).length = 2 ∧
    ((∀ j i, j < gf12.GFBITS → i < 1 <<< gf12.GFBITS →
      (((benes348864.planesInit j (i / 8)).testBit (i % 8) = true) ↔
        ((gf12.bitrev i).testBit j = true))) ∧
    (benes348864.support_gen (fun p _ _ => p) 2 [7, 9] (fun _ => 0) =
      (List.range 2).map (fun i =>
        benes348864.extractElem
          (fun j => benes348864.planesInit j) i)) ∧
    (∀ i, i < 2 →
      ((benes348864.support_gen (fun p _ _ => p) 2 [7, 9]
          (fun _ => 0)).getD i 0 < 2 ^ gf12.GFBITS ∧
        ∀ j, j < gf12.GFBITS →
          (((benes348864.support_gen (fun p _ _ => p) 2 [7, 9]
              (fun _ => 0)).getD i 0).testBit j
            = decide (((benes348864.planesInit j (i / 8))
                >>> (i % 8)) &&& 1 = 1))))) :=
  ⟨by decide,
    c4_support_gen (fun p _ _ => p) (fun _ => 0) 2 [7, 9] (by decide)⟩

namespace gf13

/-- GF_mul of gf.rs: multiplication in GF((2^m)^t). prod is the 2t-1
convolution of the coefficient arrays under gf_mul; the while loop reduces
degrees 2t-2 down to t with taps at offsets 7, 2, 1, 0; the final loop
copies the t low coefficients into out. -/
def GF_mul (t : Nat) (out in0 in1 : List Nat) : List Nat :=
  let prod : List Nat := List.replicate (t * 2 - 1) 0
  let prod := (List.range t).foldl (fun p i =>
    (List.range t).foldl (fun p j =>
      p.set (i + j)
        (p.getD (i + j) 0 ^^^ gf_mul (in0.getD i 0) (in1.getD j 0))) p) prod
  let prod := ((List.range' t (t - 1)).reverse).foldl (fun p i =>
    let p := p.set (i - t + 7) (p.getD (i - t + 7) 0 ^^^ p.getD i 0)
    let p := p.set (i - t + 2) (p.getD (i - t + 2) 0 ^^^ p.getD i 0)
    let p := p.set (i - t + 1) (p.getD (i - t + 1) 0 ^^^ p.getD i 0)
    p.set (i - t + 0) (p.getD (i - t + 0) 0 ^^^ p.getD i 0)) prod
  (List.range t).foldl (fun o i => o.set i (prod.getD i 0)) out

end gf13

/-- C10: root, support_gen and GF_mul completely overwrite their output
arrays: two runs from any two initial output-buffer contents of the right
length, with identical remaining inputs, produce identical outputs. -/
theorem c10_output_overwrite :
    (∀ (sysN t : Nat) (out₁ out₂ : List Nat) (f l : Nat → Nat),
      out₁.length = sysN → out₂.length = sysN →
      mceliece348864.root sysN t out₁ f l =
        mceliece348864.root sysN t out₂ f l) ∧
    (∀ (applyBenes : (Nat → Nat) → (Nat → Nat) → Nat → (Nat → Nat))
        (c : Nat → Nat) (sysN : Nat) (s₁ s₂ : List Nat),
      s₁.length = sysN → s₂.length = sysN →
      benes348864.support_gen applyBenes sysN s₁ c =
        benes348864.support_gen applyBenes sysN s₂ c) ∧
    (∀ (t : Nat) (out₁ out₂ in0 in1 : List Nat),
      out₁.length = t → out₂.length = t →
      gf13.GF_mul t out₁ in0 in1 = gf13.GF_mul t out₂ in0 in1) := by
  refine ⟨?_, ?_, ?_⟩
  · intro sysN t out₁ out₂ f l h₁ h₂
    rw [root_spec sysN t out₁ f l h₁, root_spec sysN t out₂ f l h₂]
  · intro applyBenes c sysN s₁ s₂ h₁ h₂
    rw [support_gen_map applyBenes sysN s₁ c h₁,
      support_gen_map applyBenes sysN s₂ c h₂]
  · intro t out₁ out₂ in0 in1 h₁ h₂
    simp only [gf13.GF_mul]
    rw [foldl_set_overwrite _ t out₁ (by omega),
      foldl_set_overwrite _ t out₂ (by omega)]
    have e₁ : out₁.drop t = [] := by rw [← h₁]; simp
    have e₂ : out₂.drop t = [] := by rw [← h₂]; simp
    rw [e₁, e₂]

theorem c10_output_overwrite_witness :
    ((([5] : List Nat).length = 1) ∧ (([9] : List Nat).length = 1)) ∧
    (mceliece348864.root 1 1 [5] (fun _ => 1) (fun _ => 2) =
      mceliece348864.root 1 1 [9] (fun _ => 1) (fun _ => 2)) ∧
    (benes348864.support_gen (fun p _ _ => p) 1 [5] (fun _ => 0) =
      benes348864.support_gen (fun p _ _ => p) 1 [9] (fun _ => 0)) ∧
    (gf13.GF_mul 1 [5] [3] [4] = gf13.GF_mul 1 [9] [3] [4]) :=
  ⟨⟨by decide, by decide⟩,
    c10_output_overwrite.1 1 1 [5] [9] (fun _ => 1) (fun _ => 2)
      (by decide) (by decide),
    c10_output_overwrite.2.1 (fun p _ _ => p) (fun _ => 0) 1 [5] [9]
      (by decide) (by decide),
    c10_output_overwrite.2.2 1 [5] [9] [3] [4] (by decide) (by decide)⟩
